import Mathlib

/-!
# vault-certs: request construction and issuance workflow

A shallow embedding of `main.go` of `andrewstuart/vault-certs`.

* Go strings are byte sequences (`GoString`, a list of byte values).
* `main` is embedded as a function from an environment `Env` (flag values after
  `flag.Parse`, positional arguments, operating-system and authority responses)
  to a `Run`: the ordered trace of externally visible events, the final state
  of the file system and the exit status.
* Standard-library functions that `main` calls are embedded from the Go
  standard library: `strings.Split`, `time.ParseDuration` (with `leadingInt`,
  `leadingFraction`, `unitMap`), `os.OpenFile`, `(*os.File).Write`. A file
  that `os.OpenFile` creates gets the requested mode less the process umask.
  `net.ParseIP`, `homedir.Dir`, `path.Join`, `ioutil.ReadFile`, the float64
  arithmetic of fractional durations and the two `vpki.Client` issuance calls
  are responses supplied by the environment.
-/

set_option maxRecDepth 100000

namespace VaultCerts

/-- A Go string: an immutable sequence of bytes. -/
abbrev GoString := List Nat

/-- The byte string of an ASCII literal. -/
def ascii (s : String) : GoString := s.toList.map Char.toNat

deriving instance DecidableEq for Except

/-! ## `strings.Split` -/

namespace strings

/-- Go `strings.Split(s, sep)` for a one-byte separator `sep` (the program only
calls it with `","`): the substrings between the separators, in order. The
empty string yields one empty token. -/
def Split (sep : Nat) : GoString → List GoString
  | [] => [[]]
  | c :: cs =>
    if c = sep then [] :: Split sep cs
    else
      match Split sep cs with
      | [] => [[c]]
      | t :: ts => (c :: t) :: ts

end strings

/-! ## `time.ParseDuration` -/

namespace time

/-- The three error messages of `time.ParseDuration`. -/
inductive ParseError where
  | invalidDuration
  | missingUnit
  | unknownUnit (u : GoString)
  deriving DecidableEq, Repr

/-- Go `unitMap`: nanoseconds per unit, keyed by the unit's bytes. -/
def unitMap (u : GoString) : Option Nat :=
  if u = [110, 115] then some 1                      -- "ns"
  else if u = [117, 115] then some 1000              -- "us"
  else if u = [194, 181, 115] then some 1000         -- "µs" (U+00B5)
  else if u = [206, 188, 115] then some 1000         -- "μs" (U+03BC)
  else if u = [109, 115] then some 1000000           -- "ms"
  else if u = [115] then some 1000000000             -- "s"
  else if u = [109] then some 60000000000            -- "m"
  else if u = [104] then some 3600000000000          -- "h"
  else none

/-- Go `leadingInt`: consumes the leading `[0-9]*` of `s`, accumulating into the
uint64 `x` (initially 0); `none` is `errLeadingInt` (overflow). -/
def leadingInt (x : Nat) : GoString → Option (Nat × GoString)
  | [] => some (x, [])
  | c :: cs =>
    if c < 48 ∨ c > 57 then some (x, c :: cs)
    else if x > 2 ^ 63 / 10 then none
    else
      let y := (x * 10 + c - 48) % 2 ^ 64
      if y > 2 ^ 63 then none
      else leadingInt y cs

/-- Go `leadingFraction`: consumes the leading `[0-9]*` of `s`; it never fails,
it stops accumulating precision on overflow. `scale` is a power of ten no
larger than `10 ^ 19`, which float64 represents exactly. -/
def leadingFraction (x scale : Nat) (overflow : Bool) : GoString → Nat × Nat × GoString
  | [] => (x, scale, [])
  | c :: cs =>
    if c < 48 ∨ c > 57 then (x, scale, c :: cs)
    else if overflow then leadingFraction x scale overflow cs
    else if x > (2 ^ 63 - 1) / 10 then leadingFraction x scale true cs
    else
      let y := (x * 10 + c - 48) % 2 ^ 64
      if y > 2 ^ 63 then leadingFraction x scale true cs
      else leadingFraction y (scale * 10) overflow cs

/-- The byte test `c == '.' || '0' <= c && c <= '9'`. -/
def isDotOrDigit (c : Nat) : Bool := c = 46 ∨ (48 ≤ c ∧ c ≤ 57)

/-- The unit scan of `ParseDuration`: the bytes up to the next `.` or digit,
and the rest. -/
def scanUnit : GoString → GoString × GoString
  | [] => ([], [])
  | c :: cs =>
    if isDotOrDigit c then ([], c :: cs)
    else ((c :: (scanUnit cs).1), (scanUnit cs).2)

/-- The `(\.[0-9]*)?` step of `ParseDuration` on the rest `s1` after the leading
integer: the fraction digits `f`, their `scale`, the rest, and `post` (whether
a digit was consumed after the period). -/
def fraction (s1 : GoString) : Nat × Nat × GoString × Bool :=
  match s1 with
  | 46 :: r =>
    let t := leadingFraction 0 1 false r
    (t.1, t.2.1, t.2.2, decide (r.length ≠ t.2.2.length))
  | _ => (0, 1, s1, false)

/-- The body of the `for s != ""` loop of `ParseDuration`, iterated. `d` is the
uint64 accumulator. `frac f unit scale` is the uint64 value of the float64
expression `float64(f) * (float64(unit) / scale)`. The loop consumes at least
one byte per iteration; `none` means the iteration budget ran out, which
`parseLoop_total` shows cannot happen with a budget of `s.length`. -/
def parseLoop (frac : Nat → Nat → Nat → Nat) :
    Nat → GoString → Nat → Option (Except ParseError Nat)
  | _, [], d => some (.ok d)
  | 0, _ :: _, _ => none
  | fuel + 1, c :: cs, d =>
    if ¬ isDotOrDigit c then some (.error .invalidDuration)
    else
      match leadingInt 0 (c :: cs) with
      | none => some (.error .invalidDuration)
      | some (v, s1) =>
        let pre : Bool := (c :: cs).length ≠ s1.length
        let f := (fraction s1).1
        let scale := (fraction s1).2.1
        let s2 := (fraction s1).2.2.1
        let post := (fraction s1).2.2.2
        if !pre && !post then some (.error .invalidDuration)
        else
          let u := (scanUnit s2).1
          let s3 := (scanUnit s2).2
          if u = [] then some (.error .missingUnit)
          else
            match unitMap u with
            | none => some (.error (.unknownUnit u))
            | some unit =>
              if v > 2 ^ 63 / unit then some (.error .invalidDuration)
              else
                let v1 := (v * unit) % 2 ^ 64
                let v2 := if f > 0 then (v1 + frac f unit scale) % 2 ^ 64 else v1
                if f > 0 ∧ v2 > 2 ^ 63 then some (.error .invalidDuration)
                else
                  let d1 := (d + v2) % 2 ^ 64
                  if d1 > 2 ^ 63 then some (.error .invalidDuration)
                  else parseLoop frac fuel s3 d1

/-- Conversion of an integer to Go `int64` (two's complement wrap-around). -/
def toInt64 (x : Int) : Int := (x + 2 ^ 63) % 2 ^ 64 - 2 ^ 63

/-- Go `time.ParseDuration(s)`: a signed sequence of decimal numbers, each with
optional fraction and a unit suffix; the result is a `Duration` (int64
nanoseconds). -/
def ParseDuration (frac : Nat → Nat → Nat → Nat) (orig : GoString) :
    Except ParseError Int :=
  let neg : Bool := match orig with
    | c :: _ => c = 45
    | [] => false
  let s : GoString := match orig with
    | c :: cs => if c = 45 ∨ c = 43 then cs else c :: cs
    | [] => []
  if s = [48] then .ok 0
  else if s = [] then .error .invalidDuration
  else
    match parseLoop frac s.length s 0 with
    | none => .error .invalidDuration
    | some (.error err) => .error err
    | some (.ok d) =>
      if neg then .ok (toInt64 (- toInt64 d))
      else if d > 2 ^ 63 - 1 then .error .invalidDuration
      else .ok (toInt64 d)

end time

/-! ## Data model of the libraries used by `main` -/

namespace tls

/-- The field of `tls.Config` that `main` sets. -/
structure Config where
  InsecureSkipVerify : Bool
  deriving DecidableEq, Repr

end tls

namespace http

/-- The field of `http.Transport` that `main` sets. -/
structure Transport where
  TLSClientConfig : Option tls.Config
  deriving DecidableEq, Repr

/-- The field of `http.Client` that `main` sets. -/
structure Client where
  Transport : Option http.Transport
  deriving DecidableEq, Repr

end http

namespace net

/-- Go `net.IP`: a byte slice; `nil` (the empty list) is the null IP. -/
abbrev IP := List Nat

/-- Go `net.ParseIP(s)`: the parsed address, or `nil` when `s` is not a valid
textual IP address. `parse` is the textual IP grammar of the library. -/
def ParseIP (parse : GoString → Option IP) (s : GoString) : IP :=
  match parse s with
  | some ip => ip
  | none => []

end net

namespace pkix

/-- The fields of `pkix.Name` that `main` sets. -/
structure Name where
  CommonName : GoString
  Organization : List GoString
  OrganizationalUnit : List GoString
  deriving DecidableEq, Repr

end pkix

namespace x509

/-- The fields of `x509.CertificateRequest` that `main` sets. -/
structure CertificateRequest where
  Subject : pkix.Name
  DNSNames : List GoString
  IPAddresses : List net.IP
  deriving DecidableEq, Repr

end x509

namespace vpki

/-- The fields of `vpki.Client` that `main` sets (`token` is what `SetToken`
stores). -/
structure Client where
  Mount : GoString
  Role : GoString
  Addr : GoString
  HTTPClient : Option http.Client
  TTL : Int
  token : GoString
  deriving DecidableEq, Repr

/-- The result of `GenCert`: certificate bytes and private-key bytes. -/
structure RawPair where
  Public : GoString
  Private : GoString
  deriving DecidableEq, Repr

end vpki

/-! ## File system -/

/-- A regular file: its bytes and its permission bits. -/
structure File where
  data : GoString
  perm : Nat
  deriving DecidableEq, Repr

/-- The file system: file name to file, `none` when the name does not exist. -/
abbrev FS := GoString → Option File

/-- The flags `main` passes to `os.OpenFile`. -/
inductive OpenFlag where
  | O_RDWR
  | O_CREATE
  | O_TRUNC
  deriving DecidableEq, Repr

/-- The mode a file is created with: the requested permission bits `perm` with
the bits of the process umask cleared (`perm & ~umask`, within the nine
permission bits). -/
def applyUmask (perm umask : Nat) : Nat :=
  perm &&& (0o777 ^^^ (umask &&& 0o777))

/-- Effect of a successful `os.OpenFile(name, flags, perm)` whose flags include
`O_CREATE`, in a process with the given umask: an absent file is created empty
with mode `perm & ~umask`; an existing file keeps its mode and is emptied
exactly when `O_TRUNC` is among the flags. -/
def FS.open (fs : FS) (umask : Nat) (name : GoString) (flags : List OpenFlag) (perm : Nat) :
    FS :=
  fun p =>
    if p = name then
      match fs name with
      | none => some ⟨[], applyUmask perm umask⟩
      | some f => if OpenFlag.O_TRUNC ∈ flags then some ⟨[], f.perm⟩ else some f
    else fs p

/-- Effect of `Write(data)` on a freshly opened file (offset 0): the bytes
replace the start of the file; bytes beyond them stay. -/
def FS.write (fs : FS) (name : GoString) (data : GoString) : FS :=
  fun p =>
    if p = name then
      match fs name with
      | none => none
      | some f => some ⟨data ++ f.data.drop data.length, f.perm⟩
    else fs p

/-! ## Events and environment -/

/-- The `log.Fatal` call sites of `main`, in source order. -/
inductive Fatal where
  | homedir
  | tokenRead
  | noVaultAddr
  | ttlParse (err : time.ParseError)
  | csrRead
  | outputOpen
  | csrSign
  | fileWrite
  | genCert
  | certOpen
  | keyOpen
  | certWrite
  | keyWrite
  deriving DecidableEq, Repr

/-- Externally visible steps of a run, in the order they happen. -/
inductive Event where
  | usage
  | exit (code : Nat)
  | homedirDir
  | readFile (name : GoString)
  | getenv (name : GoString)
  | fatal (site : Fatal)
  | openFile (name : GoString) (flags : List OpenFlag) (perm : Nat)
  | write (name : GoString) (data : GoString)
  | close (name : GoString)
  | RawSignCSRBytes (cli : vpki.Client) (csr : GoString) (cn : GoString) (ttl : Int)
  | GenCert (cli : vpki.Client) (req : x509.CertificateRequest)
  deriving DecidableEq, Repr

/-- Everything a run of the program depends on. -/
structure Env where
  /-- `*mount` after `flag.Parse`. -/
  mount : GoString
  /-- `*profile` after `flag.Parse` (the flag, else `VAULT_PKI_PROFILE`). -/
  profile : GoString
  /-- `*ttl` after `flag.Parse`. -/
  ttl : GoString
  /-- `*alt` after `flag.Parse`. -/
  alt : GoString
  /-- `*org` after `flag.Parse`. -/
  org : GoString
  /-- `*ips` after `flag.Parse`. -/
  ips : GoString
  /-- `*csr` after `flag.Parse`. -/
  csr : GoString
  /-- `*insecure` after `flag.Parse` (the `-k` flag). -/
  insecure : Bool
  /-- `flag.Args()`: the positional arguments. -/
  args : List GoString
  /-- Result of `homedir.Dir()`; `none` is an error. -/
  homedirDir : Option GoString
  /-- `path.Join` of two elements. -/
  pathJoin : GoString → GoString → GoString
  /-- `ioutil.ReadFile`; `none` is an error. -/
  readFile : GoString → Option GoString
  /-- `os.Getenv("VAULT_ADDR")`; empty when unset. -/
  vaultAddr : GoString
  /-- The file system before the run. -/
  fs : FS
  /-- The file mode creation mask of the process. -/
  umask : Nat
  /-- Whether `os.OpenFile` on this name returns an error. -/
  openFails : GoString → Bool
  /-- Whether `Write` on this file returns an error, and after how many bytes. -/
  writeFails : GoString → Option Nat
  /-- The float64 expression of `time.ParseDuration`, as a uint64. -/
  floatFrac : Nat → Nat → Nat → Nat
  /-- The textual IP grammar of `net.ParseIP`. -/
  parseIP : GoString → Option net.IP
  /-- Response of the authority to `cli.RawSignCSRBytes`; `none` is an error. -/
  RawSignCSRBytes : vpki.Client → GoString → GoString → Int → Option GoString
  /-- Response of the authority to `cli.GenCert`; `none` is an error. -/
  GenCert : vpki.Client → x509.CertificateRequest → Option vpki.RawPair

/-- Outcome of a run. -/
structure Run where
  /-- The events of the run, oldest first. -/
  trace : List Event
  /-- The file system after the run. -/
  fs : FS
  /-- The process exit status. -/
  status : Nat

/-! ## `main.go` -/

/-- Go `init()` (lines 51-57): an empty profile becomes `"pki"`. -/
def init (profile : GoString) : GoString :=
  if profile = [] then ascii "pki" else profile

/-- Lines 68-71: `pfx := args[0]; if len(args) > 1 { pfx = args[1] }`. -/
def pfxOf (a0 : GoString) (rest : List GoString) : GoString :=
  match rest with
  | [] => a0
  | a1 :: _ => a1

/-- Lines 88-102: the client literal and the `-k` branch. -/
def newClient (e : Env) (a : GoString) : vpki.Client :=
  let cli : vpki.Client :=
    { Mount := e.mount, Role := init e.profile, Addr := a,
      HTTPClient := none, TTL := 0, token := [] }
  if e.insecure then
    { cli with HTTPClient := some ⟨some ⟨some ⟨true⟩⟩⟩ }
  else cli

/-- Lines 139-159: the certificate request built in generate mode. -/
def buildRequest (e : Env) (pfx : GoString) : x509.CertificateRequest :=
  let names := strings.Split 44 e.alt
  let names := names ++ [pfx]
  let crtR : x509.CertificateRequest :=
    { Subject := { CommonName := pfx, Organization := [], OrganizationalUnit := [] },
      DNSNames := names, IPAddresses := [] }
  let crtR : x509.CertificateRequest :=
    if e.org ≠ [] then
      let orgs := strings.Split 44 e.org
      { crtR with Subject := { crtR.Subject with Organization := orgs, OrganizationalUnit := orgs } }
    else crtR
  if e.ips ≠ [] ∧ e.ips.length > 0 then
    { crtR with IPAddresses := (strings.Split 44 e.ips).map (net.ParseIP e.parseIP) }
  else crtR

/-- Effect of `f.Write(data)` on file `name`: all of `data` when it succeeds,
the first `n` bytes when it fails after `n` bytes. -/
def doWrite (e : Env) (fs : FS) (name data : GoString) : FS :=
  match e.writeFails name with
  | none => fs.write name data
  | some n => fs.write name (data.take n)

/-- Lines 114-137: sign mode (`-csr` given). `tr` is the trace so far. -/
def signMode (e : Env) (cli : vpki.Client) (pfx : GoString) (tr : List Event) : Run :=
  let tr := tr ++ [.readFile e.csr]
  match e.readFile e.csr with
  | none => ⟨tr ++ [.fatal .csrRead], e.fs, 1⟩
  | some bs =>
    let crt := pfx ++ ascii ".crt"
    let tr := tr ++ [.openFile crt [.O_RDWR, .O_CREATE] 0o640]
    if e.openFails crt then ⟨tr ++ [.fatal .outputOpen], e.fs, 1⟩
    else
      let fs := e.fs.open e.umask crt [.O_RDWR, .O_CREATE] 0o640
      let tr := tr ++ [.RawSignCSRBytes cli bs pfx cli.TTL]
      match e.RawSignCSRBytes cli bs pfx cli.TTL with
      | none => ⟨tr ++ [.fatal .csrSign], fs, 1⟩
      | some res =>
        let tr := tr ++ [.write crt res]
        let fs := doWrite e fs crt res
        match e.writeFails crt with
        | some _ => ⟨tr ++ [.fatal .fileWrite], fs, 1⟩
        | none => ⟨tr ++ [.close crt], fs, 0⟩

/-- Lines 139-186: generate mode. `tr` is the trace so far. -/
def generateMode (e : Env) (cli : vpki.Client) (pfx : GoString) (tr : List Event) : Run :=
  let crtR := buildRequest e pfx
  let tr := tr ++ [.GenCert cli crtR]
  match e.GenCert cli crtR with
  | none => ⟨tr ++ [.fatal .genCert], e.fs, 1⟩
  | some certs =>
    let crt := pfx ++ ascii ".crt"
    let key := pfx ++ ascii ".key"
    let tr := tr ++ [.openFile crt [.O_RDWR, .O_CREATE, .O_TRUNC] 0o640]
    if e.openFails crt then ⟨tr ++ [.fatal .certOpen], e.fs, 1⟩
    else
      let fs := e.fs.open e.umask crt [.O_RDWR, .O_CREATE, .O_TRUNC] 0o640
      let tr := tr ++ [.openFile key [.O_RDWR, .O_CREATE, .O_TRUNC] 0o600]
      if e.openFails key then ⟨tr ++ [.fatal .keyOpen], fs, 1⟩
      else
        let fs := fs.open e.umask key [.O_RDWR, .O_CREATE, .O_TRUNC] 0o600
        let tr := tr ++ [.write crt certs.Public]
        let fs := doWrite e fs crt certs.Public
        match e.writeFails crt with
        | some _ => ⟨tr ++ [.fatal .certWrite], fs, 1⟩
        | none =>
          let tr := tr ++ [.write key certs.Private]
          let fs := doWrite e fs key certs.Private
          match e.writeFails key with
          | some _ => ⟨tr ++ [.fatal .keyWrite], fs, 1⟩
          | none => ⟨tr ++ [.close key, .close crt], fs, 0⟩

/-- Lines 104-110: `if *ttl != "" { t, err := time.ParseDuration(*ttl) ...
cli.TTL = t }`; an error is the argument of `log.Fatal(err)`. -/
def setTTL (e : Env) (cli : vpki.Client) : Except time.ParseError vpki.Client :=
  if e.ttl ≠ [] then
    match time.ParseDuration e.floatFrac e.ttl with
    | .error err => .error err
    | .ok d => .ok { cli with TTL := d }
  else .ok cli

/-- Lines 59-112 of `main`: positional arguments, home directory, token file,
`VAULT_ADDR`, client construction, TTL and token. The result is either the
finished run of an early exit, or the client, `pfx` and the trace so far. -/
def startup (e : Env) : Except Run (vpki.Client × GoString × List Event) :=
  match e.args with
  | [] => .error ⟨[.usage, .exit 1], e.fs, 1⟩
  | a0 :: rest =>
    let pfx := pfxOf a0 rest
    let tr := [Event.homedirDir]
    match e.homedirDir with
    | none => .error ⟨tr ++ [.fatal .homedir], e.fs, 1⟩
    | some home =>
      let tokenFile := e.pathJoin home (ascii ".vault-token")
      let tr := tr ++ [.readFile tokenFile]
      match e.readFile tokenFile with
      | none => .error ⟨tr ++ [.fatal .tokenRead], e.fs, 1⟩
      | some t =>
        let tr := tr ++ [.getenv (ascii "VAULT_ADDR")]
        let a := e.vaultAddr
        if a = [] then .error ⟨tr ++ [.fatal .noVaultAddr], e.fs, 1⟩
        else
          let cli := newClient e a
          match setTTL e cli with
          | .error err => .error ⟨tr ++ [.fatal (.ttlParse err)], e.fs, 1⟩
          | .ok cli => .ok ({ cli with token := t }, pfx, tr)

/-- Go `main()` (lines 59-186): the start-up steps, then sign mode when `-csr`
is given and generate mode otherwise. -/
def main (e : Env) : Run :=
  match startup e with
  | .error r => r
  | .ok (cli, pfx, tr) =>
    if e.csr ≠ [] then signMode e cli pfx tr
    else generateMode e cli pfx tr

/-- The client an issuance event carries. -/
def Event.client? : Event → Option vpki.Client
  | .RawSignCSRBytes cli _ _ _ => some cli
  | .GenCert cli _ => some cli
  | _ => none

/-- The certificate request a `GenCert` event carries. -/
def Event.request? : Event → Option x509.CertificateRequest
  | .GenCert _ req => some req
  | _ => none

/-- Whether the event opens or writes an output file. -/
def Event.isOutput : Event → Bool
  | .openFile _ _ _ => true
  | .write _ _ => true
  | _ => false

/-- The run aborted without touching the file system: exit status 1, the
file system as it was, and no output file opened or written. -/
def abortsUntouched (e : Env) (r : Run) : Prop :=
  r.status = 1 ∧ r.fs = e.fs ∧ ∀ ev ∈ r.trace, ev.isOutput = false

/-! ## Concrete environments -/

/-- An environment in which every step succeeds: one positional argument
`example.com`, default flag values, an empty file system, and an authority that
answers every request. -/
def okEnv : Env :=
  { mount := ascii "pki", profile := [], ttl := ascii "8760h", alt := [], org := [],
    ips := [], csr := [], insecure := false,
    args := [ascii "example.com"],
    homedirDir := some (ascii "/root"),
    pathJoin := fun d f => d ++ ascii "/" ++ f,
    readFile := fun name =>
      if name = ascii "/root/.vault-token" then some (ascii "tok")
      else if name = ascii "req.csr" then some (ascii "CSR")
      else none,
    vaultAddr := ascii "https://vault:8200",
    fs := fun _ => none,
    umask := 0o022,
    openFails := fun _ => false,
    writeFails := fun _ => none,
    floatFrac := fun _ _ _ => 0,
    parseIP := fun t => if t = ascii "10.0.0.1" then some [10, 0, 0, 1] else none,
    RawSignCSRBytes := fun _ _ _ _ => some (ascii "CERT"),
    GenCert := fun _ _ => some ⟨ascii "CERT", ascii "KEY"⟩ }


/-- The client `main` builds in `okEnv`: TTL 8760 hours, no custom HTTP client. -/
def okClient : vpki.Client :=
  { Mount := ascii "pki", Role := ascii "pki", Addr := ascii "https://vault:8200",
    HTTPClient := none, TTL := 31536000000000000, token := ascii "tok" }

/-- As `okEnv`, with `-alt www.example.com,example.com`. -/
def altEnv : Env := { okEnv with alt := ascii "www.example.com,example.com" }

/-- As `okEnv`, with a second positional argument `out`. -/
def twoArgEnv : Env := { okEnv with args := [ascii "example.com", ascii "out"] }

/-- As `twoArgEnv`, in sign mode (`-csr req.csr`). -/
def twoArgSignEnv : Env := { twoArgEnv with csr := ascii "req.csr" }

/-- As `okEnv`, with `-k`. -/
def kEnv : Env := { okEnv with insecure := true }

/-- As `okEnv`, with `-ips 10.0.0.1,bogus`. -/
def ipsEnv : Env := { okEnv with ips := ascii "10.0.0.1,bogus" }

/-- As `okEnv`, with `-ttl -1h`. -/
def negTtlEnv : Env := { okEnv with ttl := ascii "-1h" }

/-- As `okEnv`, with `-ttl ""`. -/
def emptyTtlEnv : Env := { okEnv with ttl := [] }

/-- As `okEnv`, with `-ttl abc`. -/
def badTtlEnv : Env := { okEnv with ttl := ascii "abc" }

/-- As `okEnv`, with `-ttl 2562048h`. -/
def bigTtlEnv : Env := { okEnv with ttl := ascii "2562048h" }

/-- As `okEnv`, with `-ttl 24h`. -/
def dayTtlEnv : Env := { okEnv with ttl := ascii "24h" }

/-- The number a string of decimal digits denotes. -/
def decimalValue (ds : GoString) : Nat :=
  ds.foldl (fun x c => x * 10 + (c - 48)) 0

/-- As `okEnv`, with `VAULT_ADDR` unset. -/
def noAddrEnv : Env := { okEnv with vaultAddr := [] }

/-- A file system holding an earlier certificate and key for `example.com`. -/
def seededFS : FS := fun name =>
  if name = ascii "example.com.crt" then some ⟨ascii "OLD CERTIFICATE", 0o644⟩
  else if name = ascii "example.com.key" then some ⟨ascii "OLD KEY", 0o600⟩
  else none

/-- As `okEnv`, over `seededFS`. -/
def seededEnv : Env := { okEnv with fs := seededFS }

/-- As `okEnv`, in sign mode, with an authority that rejects the request. -/
def signFailEnv : Env :=
  { okEnv with csr := ascii "req.csr", RawSignCSRBytes := fun _ _ _ _ => none }

/-- As `seededEnv`, with a key file that cannot be opened. -/
def keyOpenFailEnv : Env :=
  { seededEnv with openFails := fun name => name = ascii "example.com.key" }

/-- As `okEnv`, with an authority that rejects the generate request. -/
def genFailEnv : Env := { okEnv with GenCert := fun _ _ => none }

/-- As `okEnv`, in a process with umask 077. -/
def umask077Env : Env := { okEnv with umask := 0o077 }

/-- As `okEnv`, in sign mode, with a CSR file that cannot be read. -/
def noCsrEnv : Env := { okEnv with csr := ascii "missing.csr" }

/-- As `okEnv`, without a home directory. -/
def noHomeEnv : Env := { okEnv with homedirDir := none }

/-! ## `strings.Split` is the inverse of joining with the separator -/

theorem Split_ne_nil (sep : Nat) (s : GoString) : strings.Split sep s ≠ [] := by
  cases s with
  | nil => simp [strings.Split]
  | cons c cs =>
    unfold strings.Split
    split
    · simp
    · split <;> simp

/-- No token contains the separator. -/
theorem Split_sep_not_mem (sep : Nat) (s : GoString) :
    ∀ t ∈ strings.Split sep s, sep ∉ t := by
  induction s with
  | nil => simp [strings.Split]
  | cons c cs ih =>
    unfold strings.Split
    split
    · intro t ht
      simp only [List.mem_cons] at ht
      rcases ht with h | h
      · subst h; simp
      · exact ih t h
    · rename_i hc
      split
      · simp; exact fun h => hc h.symm
      · rename_i t ts heq
        rw [heq] at ih
        intro u hu
        simp only [List.mem_cons] at hu
        rcases hu with h | h
        · subst h
          have := ih t (List.mem_cons_self _ _)
          simp only [List.mem_cons, not_or]
          exact ⟨fun h => hc h.symm, this⟩
        · exact ih u (List.mem_cons_of_mem _ h)

theorem intercalate_single (sep t : GoString) : List.intercalate sep [t] = t := by
  simp [List.intercalate]

theorem intercalate_cons_cons (sep a b : GoString) (l : List GoString) :
    List.intercalate sep (a :: b :: l) = a ++ sep ++ List.intercalate sep (b :: l) := by
  simp [List.intercalate]

/-- Joining the tokens with the separator gives the string back. -/
theorem Split_intercalate (sep : Nat) (s : GoString) :
    List.intercalate [sep] (strings.Split sep s) = s := by
  induction s with
  | nil => simp [strings.Split, List.intercalate]
  | cons c cs ih =>
    unfold strings.Split
    split
    · rename_i hc
      cases hsp : strings.Split sep cs with
      | nil => exact (Split_ne_nil sep cs hsp).elim
      | cons t ts =>
        rw [hsp] at ih
        rw [intercalate_cons_cons, ih, hc]
        rfl
    · cases hsp : strings.Split sep cs with
      | nil => exact (Split_ne_nil sep cs hsp).elim
      | cons t ts =>
        rw [hsp] at ih
        cases ts with
        | nil =>
          rw [intercalate_single] at ih
          simp only [intercalate_single, ih]
        | cons t2 ts2 =>
          rw [intercalate_cons_cons] at ih
          simp only [intercalate_cons_cons, List.cons_append, ih]

/-! ## Lemmas on the run structure -/

theorem startup_error {e : Env} {r : Run} (h : startup e = .error r) :
    r.fs = e.fs ∧ r.status = 1 ∧
      ∀ ev ∈ r.trace, ev.client? = none ∧ ev.isOutput = false := by
  unfold startup at h
  split at h
  · cases h; simp [Event.client?, Event.isOutput]
  · split at h
    · cases h; simp [Event.client?, Event.isOutput]
    · dsimp only at h
      split at h
      · cases h; simp [Event.client?, Event.isOutput]
      · split at h
        · cases h; simp [Event.client?, Event.isOutput]
        · split at h
          · cases h; simp [Event.client?, Event.isOutput]
          · cases h

theorem startup_ok {e : Env} {cli : vpki.Client} {pfx : GoString} {tr : List Event}
    (h : startup e = .ok (cli, pfx, tr)) :
    ∃ a0 rest home t c,
      e.args = a0 :: rest ∧ pfx = pfxOf a0 rest ∧ e.homedirDir = some home ∧
      e.readFile (e.pathJoin home (ascii ".vault-token")) = some t ∧
      e.vaultAddr ≠ [] ∧
      setTTL e (newClient e e.vaultAddr) = .ok c ∧
      cli = { c with token := t } ∧
      tr = [.homedirDir, .readFile (e.pathJoin home (ascii ".vault-token")),
            .getenv (ascii "VAULT_ADDR")] := by
  unfold startup at h
  split at h
  · cases h
  · rename_i a0 rest hargs
    split at h
    · cases h
    · rename_i home hhome
      dsimp only at h
      split at h
      · cases h
      · rename_i t htok
        split at h
        · cases h
        · rename_i haddr
          split at h
          · cases h
          · rename_i c hc
            simp only [Except.ok.injEq, Prod.mk.injEq] at h
            obtain ⟨h1, h2, h3⟩ := h
            exact ⟨a0, rest, home, t, c, hargs, h2.symm, hhome, htok, haddr, hc, h1.symm,
              by simp [← h3]⟩

theorem signMode_clients (e : Env) (cli : vpki.Client) (pfx : GoString) (tr : List Event) :
    (signMode e cli pfx tr).trace.filterMap Event.client? = tr.filterMap Event.client? ∨
    (signMode e cli pfx tr).trace.filterMap Event.client? = tr.filterMap Event.client? ++ [cli] := by
  unfold signMode
  dsimp only
  repeat' split
  all_goals simp [Event.client?, List.filterMap_append]

theorem signMode_requests (e : Env) (cli : vpki.Client) (pfx : GoString) (tr : List Event) :
    (signMode e cli pfx tr).trace.filterMap Event.request? = tr.filterMap Event.request? := by
  unfold signMode
  dsimp only
  repeat' split
  all_goals simp [Event.request?, List.filterMap_append]

theorem generateMode_clients (e : Env) (cli : vpki.Client) (pfx : GoString) (tr : List Event) :
    (generateMode e cli pfx tr).trace.filterMap Event.client? =
      tr.filterMap Event.client? ++ [cli] := by
  unfold generateMode
  dsimp only
  repeat' split
  all_goals simp [Event.client?, List.filterMap_append]

theorem generateMode_requests (e : Env) (cli : vpki.Client) (pfx : GoString) (tr : List Event) :
    (generateMode e cli pfx tr).trace.filterMap Event.request? =
      tr.filterMap Event.request? ++ [buildRequest e pfx] := by
  unfold generateMode
  dsimp only
  repeat' split
  all_goals simp [Event.request?, List.filterMap_append]

/-- Every client that reaches an issuance call is the start-up client. -/
theorem main_client {e : Env} {ev : Event} {c : vpki.Client}
    (hev : ev ∈ (main e).trace) (hc : ev.client? = some c) :
    ∃ a0 rest home t c0,
      e.args = a0 :: rest ∧ e.homedirDir = some home ∧
      e.readFile (e.pathJoin home (ascii ".vault-token")) = some t ∧
      e.vaultAddr ≠ [] ∧ setTTL e (newClient e e.vaultAddr) = .ok c0 ∧
      c = { c0 with token := t } := by
  have hmem : c ∈ (main e).trace.filterMap Event.client? :=
    List.mem_filterMap.2 ⟨ev, hev, hc⟩
  unfold main at hmem
  split at hmem
  · rename_i r hr
    have h := (startup_error hr).2.2
    obtain ⟨ev2, hev2, hc2⟩ := List.mem_filterMap.1 hmem
    rw [(h ev2 hev2).1] at hc2
    cases hc2
  · rename_i cli pfx tr hs
    obtain ⟨a0, rest, home, t, c0, h1, _, h3, h4, h5, h6, h7, h8⟩ := startup_ok hs
    have htr : tr.filterMap Event.client? = [] := by
      subst h8; simp [Event.client?]
    have hcl : c = cli := by
      split at hmem
      · rcases signMode_clients e cli pfx tr with h | h
        · rw [h, htr] at hmem; cases hmem
        · rw [h, htr] at hmem; simpa using hmem
      · rw [generateMode_clients, htr] at hmem; simpa using hmem
    exact ⟨a0, rest, home, t, c0, h1, h3, h4, h5, h6, hcl.trans h7⟩

/-- Every request that reaches `GenCert` is the one built from the flags and
`pfx`, and the run is in generate mode. -/
theorem main_request {e : Env} {ev : Event} {r : x509.CertificateRequest}
    (hev : ev ∈ (main e).trace) (hr : ev.request? = some r) :
    ∃ a0 rest, e.args = a0 :: rest ∧ e.csr = [] ∧ r = buildRequest e (pfxOf a0 rest) := by
  have hmem : r ∈ (main e).trace.filterMap Event.request? :=
    List.mem_filterMap.2 ⟨ev, hev, hr⟩
  unfold main at hmem
  split at hmem
  · rename_i r0 hr0
    have h := (startup_error hr0).2.2
    obtain ⟨ev2, hev2, hc2⟩ := List.mem_filterMap.1 hmem
    have h2 := (h ev2 hev2).1
    cases ev2 <;> simp [Event.request?, Event.client?] at hc2 h2
  · rename_i cli pfx tr hs
    obtain ⟨a0, rest, home, t, c0, h1, h2, _, _, _, _, _, h8⟩ := startup_ok hs
    have htr : tr.filterMap Event.request? = [] := by
      subst h8; simp [Event.request?]
    split at hmem
    · rw [signMode_requests, htr] at hmem; cases hmem
    · rename_i hcsr
      rw [generateMode_requests, htr] at hmem
      simp at hmem
      exact ⟨a0, rest, h1, by simpa using hcsr, by rw [hmem, h2]⟩

/-- In generate mode, once start-up succeeds `GenCert` is called, whatever the
flag values that only feed the request. -/
theorem main_reaches_GenCert {e : Env} {a0 : GoString} {rest : List GoString}
    {home t : GoString} {c0 : vpki.Client}
    (h1 : e.args = a0 :: rest) (h2 : e.homedirDir = some home)
    (h3 : e.readFile (e.pathJoin home (ascii ".vault-token")) = some t)
    (h4 : e.vaultAddr ≠ []) (h5 : setTTL e (newClient e e.vaultAddr) = .ok c0)
    (h6 : e.csr = []) :
    Event.GenCert { c0 with token := t } (buildRequest e (pfxOf a0 rest)) ∈ (main e).trace := by
  have hs : startup e = .ok ({ c0 with token := t }, pfxOf a0 rest,
      [.homedirDir, .readFile (e.pathJoin home (ascii ".vault-token")),
        .getenv (ascii "VAULT_ADDR")]) := by
    simp [startup, h1, h2, h3, h4, h5]
  unfold main
  rw [hs]
  simp only [h6, ne_eq, not_true_eq_false, if_false]
  unfold generateMode
  dsimp only
  repeat' split
  all_goals simp

/-! ## The request builder -/

theorem buildRequest_DNSNames (e : Env) (pfx : GoString) :
    (buildRequest e pfx).DNSNames = strings.Split 44 e.alt ++ [pfx] := by
  unfold buildRequest
  dsimp only
  repeat' split
  all_goals rfl

theorem buildRequest_CommonName (e : Env) (pfx : GoString) :
    (buildRequest e pfx).Subject.CommonName = pfx := by
  unfold buildRequest
  dsimp only
  repeat' split
  all_goals rfl

theorem buildRequest_IPAddresses (e : Env) (pfx : GoString) :
    (buildRequest e pfx).IPAddresses =
      if e.ips = [] then [] else (strings.Split 44 e.ips).map (net.ParseIP e.parseIP) := by
  unfold buildRequest
  dsimp only
  by_cases h : e.ips = []
  · simp [h]; split <;> rfl
  · have hl : 0 < e.ips.length := List.length_pos.2 h
    simp [h, hl]

theorem setTTL_ok {e : Env} {c c0 : vpki.Client} (h : setTTL e c = .ok c0) :
    c0.HTTPClient = c.HTTPClient ∧
      ((e.ttl = [] ∧ c0 = c) ∨
        (e.ttl ≠ [] ∧ ∃ d, time.ParseDuration e.floatFrac e.ttl = .ok d ∧
          c0 = { c with TTL := d })) := by
  unfold setTTL at h
  split at h
  · rename_i hne
    split at h
    · cases h
    · rename_i d hd
      cases h
      exact ⟨rfl, Or.inr ⟨hne, d, hd, rfl⟩⟩
  · rename_i hne
    cases h
    exact ⟨rfl, Or.inl ⟨by simpa using hne, rfl⟩⟩

/-- When `GenCert` is called: exactly the runs whose start-up succeeds without
`-csr`. -/
theorem genCert_called_iff (e : Env) :
    (∃ c r, Event.GenCert c r ∈ (main e).trace) ↔
      ∃ a0 rest home t c0,
        e.args = a0 :: rest ∧ e.homedirDir = some home ∧
        e.readFile (e.pathJoin home (ascii ".vault-token")) = some t ∧
        e.vaultAddr ≠ [] ∧ setTTL e (newClient e e.vaultAddr) = .ok c0 ∧ e.csr = [] := by
  constructor
  · rintro ⟨c, r, h⟩
    obtain ⟨a0, rest, home, t, c0, h1, h2, h3, h4, h5, _⟩ := main_client h rfl
    obtain ⟨_, _, _, h6, _⟩ := main_request h rfl
    exact ⟨a0, rest, home, t, c0, h1, h2, h3, h4, h5, h6⟩
  · rintro ⟨a0, rest, home, t, c0, h1, h2, h3, h4, h5, h6⟩
    exact ⟨_, _, main_reaches_GenCert h1 h2 h3 h4 h5 h6⟩

/-! ## Claims -/

/-- C1: in generate mode the DNSNames of the request passed to GenCert are the
tokens of splitting the `-alt` value on commas, in order and with duplicates,
followed by the common name of the request as last element; the common name is
a member of DNSNames; with one positional argument the common name is that
argument. -/
theorem C1_dnsNames_split_then_cn (e : Env) (cli : vpki.Client)
    (req : x509.CertificateRequest) (hgen : e.csr = [])
    (h : Event.GenCert cli req ∈ (main e).trace) :
    req.DNSNames = strings.Split 44 e.alt ++ [req.Subject.CommonName] ∧
      req.Subject.CommonName ∈ req.DNSNames ∧
      ∀ cn, e.args = [cn] → req.Subject.CommonName = cn := by
  obtain ⟨a0, rest, h1, _, h3⟩ := main_request h rfl
  have hcn := buildRequest_CommonName e (pfxOf a0 rest)
  have hdns := buildRequest_DNSNames e (pfxOf a0 rest)
  rw [← h3] at hcn hdns
  refine ⟨by rw [hdns, hcn], by rw [hdns, hcn]; simp, ?_⟩
  intro cn hargs
  rw [h1] at hargs
  cases hargs
  rw [hcn]; rfl

theorem C1_dnsNames_split_then_cn_witness :
    altEnv.csr = [] ∧
    Event.GenCert okClient
      ⟨⟨ascii "example.com", [], []⟩,
        [ascii "www.example.com", ascii "example.com", ascii "example.com"], []⟩
      ∈ (main altEnv).trace ∧
    [ascii "www.example.com", ascii "example.com", ascii "example.com"] =
      strings.Split 44 altEnv.alt ++ [ascii "example.com"] :=
  ⟨by decide, by decide,
    (C1_dnsNames_split_then_cn altEnv okClient
      ⟨⟨ascii "example.com", [], []⟩,
        [ascii "www.example.com", ascii "example.com", ascii "example.com"], []⟩
      (by decide) (by decide)).1⟩

/-- C2: with the default (empty) `-alt`, `-ips` and `-org` values and the single
positional argument `example.com`, the request passed to GenCert has
Subject.CommonName `example.com` but its DNSNames are the two-element sequence
of the empty string and `example.com`: `strings.Split` of the empty string
yields one empty token, and only the `-org` and `-ips` paths guard against the
empty value. -/
theorem C2_empty_alt_yields_empty_dns_name :
    okEnv.alt = [] ∧ okEnv.ips = [] ∧ okEnv.org = [] ∧ okEnv.csr = [] ∧
    okEnv.args = [ascii "example.com"] ∧
    (main okEnv).trace.filterMap Event.request? =
      [⟨⟨ascii "example.com", [], []⟩, [[], ascii "example.com"], []⟩] ∧
    Event.GenCert okClient ⟨⟨ascii "example.com", [], []⟩, [[], ascii "example.com"], []⟩
      ∈ (main okEnv).trace := by
  decide

/-- C3: with the positional arguments `example.com out`, the common name used
for issuance is the second argument `out`: in generate mode the request has
Subject.CommonName `out` and DNSNames ending in `out`, and in sign mode
RawSignCSRBytes receives `out` as common name; `example.com` is not used. -/
theorem C3_second_argument_replaces_common_name :
    twoArgEnv.args = [ascii "example.com", ascii "out"] ∧
    (main twoArgEnv).trace.filterMap Event.request? =
      [⟨⟨ascii "out", [], []⟩, [[], ascii "out"], []⟩] ∧
    Event.RawSignCSRBytes okClient (ascii "CSR") (ascii "out") 31536000000000000
      ∈ (main twoArgSignEnv).trace ∧
    (main twoArgSignEnv).trace.filterMap Event.client? = [okClient] := by
  decide

/-- C9: the client built by `main` carries a custom HTTP client with
InsecureSkipVerify set exactly when the `-k` flag is set, and none at all when
it is unset, whatever the other options and the environment; the client given
to either issuance call has the same HTTP client field. -/
theorem C9_insecure_iff_k_flag (e : Env) :
    (∀ a, ((newClient e a).HTTPClient = some ⟨some ⟨some ⟨true⟩⟩⟩ ↔ e.insecure = true) ∧
      (e.insecure = false → (newClient e a).HTTPClient = none)) ∧
    (∀ ev ∈ (main e).trace, ∀ c, ev.client? = some c →
      (c.HTTPClient = some ⟨some ⟨some ⟨true⟩⟩⟩ ↔ e.insecure = true) ∧
      (e.insecure = false → c.HTTPClient = none)) := by
  have base : ∀ a, ((newClient e a).HTTPClient = some ⟨some ⟨some ⟨true⟩⟩⟩ ↔ e.insecure = true) ∧
      (e.insecure = false → (newClient e a).HTTPClient = none) := by
    intro a
    unfold newClient
    cases hk : e.insecure <;> simp
  refine ⟨base, ?_⟩
  intro ev hev c hc
  obtain ⟨a0, rest, home, t, c0, _, _, _, _, h5, h6⟩ := main_client hev hc
  have h := (setTTL_ok h5).1
  have hc0 : c.HTTPClient = (newClient e e.vaultAddr).HTTPClient := by
    rw [h6]; exact h
  rw [hc0]
  exact base e.vaultAddr

theorem C9_insecure_iff_k_flag_witness :
    ((({ okClient with HTTPClient := some ⟨some ⟨some ⟨true⟩⟩⟩ } : vpki.Client).HTTPClient
        = some ⟨some ⟨some ⟨true⟩⟩⟩ ↔ kEnv.insecure = true) ∧
      (kEnv.insecure = false →
        ({ okClient with HTTPClient := some ⟨some ⟨some ⟨true⟩⟩⟩ } : vpki.Client).HTTPClient
          = none)) ∧
    (okClient.HTTPClient = none ∧ okEnv.insecure = false) :=
  ⟨(C9_insecure_iff_k_flag kEnv).2
      (Event.GenCert { okClient with HTTPClient := some ⟨some ⟨some ⟨true⟩⟩⟩ }
        ⟨⟨ascii "example.com", [], []⟩, [[], ascii "example.com"], []⟩)
      (by decide) _ rfl,
    ((C9_insecure_iff_k_flag okEnv).2
      (Event.GenCert okClient ⟨⟨ascii "example.com", [], []⟩, [[], ascii "example.com"], []⟩)
      (by decide) _ rfl).2 (by decide), by decide⟩

/-- C10: in generate mode the `-ips` value never makes the run fail: GenCert is
called for one `-ips` value exactly when it is called for any other; the
IPAddresses of the request passed to GenCert have one entry per comma-separated
token of a non-empty `-ips` value, in order, entry i being the parsed IP of
token i when it parses and the null IP when it does not; for the empty `-ips`
value IPAddresses has no entries. -/
theorem C10_ip_addresses (e : Env) (hgen : e.csr = []) :
    (∀ ips2, (∃ c r, Event.GenCert c r ∈ (main { e with ips := ips2 }).trace) ↔
        (∃ c r, Event.GenCert c r ∈ (main e).trace)) ∧
    (∀ c r, Event.GenCert c r ∈ (main e).trace →
      (e.ips = [] → r.IPAddresses = []) ∧
      (e.ips ≠ [] →
        r.IPAddresses.length = (strings.Split 44 e.ips).length ∧
        ∀ i (hi : i < (strings.Split 44 e.ips).length),
          r.IPAddresses[i]? = some
            (match e.parseIP ((strings.Split 44 e.ips).get ⟨i, hi⟩) with
              | some ip => ip
              | none => []))) := by
  constructor
  · intro ips2
    rw [genCert_called_iff, genCert_called_iff]
    rfl
  · intro c r h
    obtain ⟨a0, rest, _, _, h3⟩ := main_request h rfl
    have hip := buildRequest_IPAddresses e (pfxOf a0 rest)
    rw [← h3] at hip
    constructor
    · intro h0; rw [hip, if_pos h0]
    · intro h0
      rw [hip, if_neg h0]
      refine ⟨by simp, ?_⟩
      intro i hi
      simp [List.getElem?_map, List.getElem?_eq_getElem hi, net.ParseIP]

theorem C10_ip_addresses_witness :
    ipsEnv.csr = [] ∧
    Event.GenCert okClient
      ⟨⟨ascii "example.com", [], []⟩, [[], ascii "example.com"], [[10, 0, 0, 1], []]⟩
      ∈ (main ipsEnv).trace ∧
    strings.Split 44 ipsEnv.ips = [ascii "10.0.0.1", ascii "bogus"] ∧
    ([[10, 0, 0, 1], []] : List net.IP).length = (strings.Split 44 ipsEnv.ips).length :=
  ⟨by decide, by decide, by decide,
    (((C10_ip_addresses ipsEnv (by decide)).2 okClient
      ⟨⟨ascii "example.com", [], []⟩, [[], ascii "example.com"], [[10, 0, 0, 1], []]⟩
      (by decide)).2 (by decide)).1⟩

/-! ## Duration parsing -/

theorem leadingInt_length (s : GoString) (x v : Nat) (r : GoString)
    (h : time.leadingInt x s = some (v, r)) : r.length ≤ s.length := by
  induction s generalizing x with
  | nil => simp [time.leadingInt] at h; simp [h.2.symm]
  | cons c cs ih =>
    unfold time.leadingInt at h
    split at h
    · simp at h; simp [← h.2]
    · split at h
      · cases h
      · dsimp only at h
        split at h
        · cases h
        · exact Nat.le_trans (ih _ h) (by simp)

theorem leadingFraction_length (s : GoString) (x scale : Nat) (o : Bool) :
    (time.leadingFraction x scale o s).2.2.length ≤ s.length := by
  induction s generalizing x scale o with
  | nil => simp [time.leadingFraction]
  | cons c cs ih =>
    unfold time.leadingFraction
    dsimp only
    repeat' split
    all_goals first
      | exact Nat.le_trans (ih _ _ _) (Nat.le_succ _)
      | exact Nat.le_refl _

theorem fraction_length (s1 : GoString) : (time.fraction s1).2.2.1.length ≤ s1.length := by
  unfold time.fraction
  split
  · exact Nat.le_trans (leadingFraction_length _ _ _ _) (by simp)
  · exact Nat.le_refl _

theorem scanUnit_length (s : GoString) (h : (time.scanUnit s).1 ≠ []) :
    (time.scanUnit s).2.length < s.length := by
  induction s with
  | nil => simp [time.scanUnit] at h
  | cons c cs ih =>
    unfold time.scanUnit at h ⊢
    split
    · rename_i hc; simp [hc] at h
    · by_cases h2 : (time.scanUnit cs).1 = []
      · have : (time.scanUnit cs).2.length ≤ cs.length := by
          cases cs with
          | nil => simp [time.scanUnit]
          | cons b bs =>
            unfold time.scanUnit at h2 ⊢
            split
            · simp
            · rename_i hb; simp [hb] at h2
        simp only [List.length_cons]
        omega
      · have := ih h2
        simp only [List.length_cons]
        omega

/-- The iteration budget `s.length` is always enough: the loop of
`ParseDuration` terminates with a value or an error. -/
theorem parseLoop_total (frac : Nat → Nat → Nat → Nat) (fuel : Nat) (s : GoString) (d : Nat)
    (h : s.length ≤ fuel) : time.parseLoop frac fuel s d ≠ none := by
  induction fuel generalizing s d with
  | zero =>
    have hs : s = [] := List.length_eq_zero.1 (Nat.le_zero.1 h)
    subst hs
    simp [time.parseLoop]
  | succ n ih =>
    cases s with
    | nil => simp [time.parseLoop]
    | cons c cs =>
      rw [time.parseLoop]
      split
      · simp
      · split
        · simp
        · rename_i v s1 hli
          have h1 := leadingInt_length _ _ _ _ hli
          have h2 := fraction_length s1
          dsimp only
          repeat' split
          all_goals first
            | (simp; done)
            | (apply ih
               have h3 := scanUnit_length (time.fraction s1).2.2.1 (by assumption)
               simp only [List.length_cons] at h h1
               omega)

/-- `time.ParseDuration` never hits the exhausted-budget branch. -/
theorem ParseDuration_loop_total (frac : Nat → Nat → Nat → Nat) (s : GoString) :
    time.parseLoop frac s.length s 0 ≠ none :=
  parseLoop_total frac s.length s 0 (Nat.le_refl _)

theorem le_foldl_digits (ds : GoString) (x : Nat) :
    x ≤ ds.foldl (fun x c => x * 10 + (c - 48)) x := by
  induction ds generalizing x with
  | nil => exact Nat.le_refl x
  | cons c cs ih =>
    simp only [List.foldl_cons]
    exact Nat.le_trans (by omega) (ih (x * 10 + (c - 48)))

theorem leadingInt_digits (ds : GoString) (x : Nat)
    (hd : ∀ c ∈ ds, 48 ≤ c ∧ c ≤ 57)
    (hb : ds.foldl (fun x c => x * 10 + (c - 48)) x ≤ 2562047) :
    time.leadingInt x (ds ++ [104]) =
      some (ds.foldl (fun x c => x * 10 + (c - 48)) x, [104]) := by
  induction ds generalizing x with
  | nil => simp [time.leadingInt]
  | cons c cs ih =>
    have hc := hd c (List.mem_cons_self c cs)
    simp only [List.foldl_cons] at hb
    have hy := le_foldl_digits cs (x * 10 + (c - 48))
    have hx : x * 10 + (c - 48) ≤ 2562047 := Nat.le_trans hy hb
    have hmod : (x * 10 + c - 48) % 2 ^ 64 = x * 10 + (c - 48) := by
      rw [Nat.mod_eq_of_lt] <;> omega
    have h1 : ¬ (c < 48 ∨ c > 57) := by omega
    have h2 : ¬ (x > 2 ^ 63 / 10) := by omega
    have h3 : ¬ (x * 10 + (c - 48) > 2 ^ 63) := by omega
    simp only [List.cons_append, time.leadingInt, h1, h2, hmod, h3, if_false, List.foldl_cons]
    exact ih _ (fun d hdm => hd d (List.mem_cons_of_mem c hdm)) hb

theorem parseLoop_single_hours (frac : Nat → Nat → Nat → Nat) (fuel c : Nat) (t : GoString)
    (N : Nat) (hdd : time.isDotOrDigit c = true)
    (hli : time.leadingInt 0 (c :: t) = some (N, [104])) (ht : t ≠ [])
    (hN : N ≤ 2562047) :
    time.parseLoop frac (fuel + 1) (c :: t) 0 = some (.ok (N * 3600000000000)) := by
  have hlen : t.length ≠ 0 := fun h => ht (List.length_eq_zero.1 h)
  have hq : (2 : Nat) ^ 63 / 3600000000000 = 2562047 := by norm_num
  have hv : ¬ (N > 2562047) := by omega
  rw [time.parseLoop]
  simp only [hdd, hli, not_true_eq_false, if_false]
  simp [time.fraction, time.scanUnit, time.isDotOrDigit, time.unitMap, hlen, hq, hv, time.parseLoop]
  have hm4 : N * 3600000000000 % 18446744073709551616 = N * 3600000000000 := by
    rw [Nat.mod_eq_of_lt]; omega
  rw [hm4, if_neg (by omega)]

theorem ParseDuration_hours (frac : Nat → Nat → Nat → Nat) (ds : GoString) (hne : ds ≠ [])
    (hd : ∀ c ∈ ds, 48 ≤ c ∧ c ≤ 57) (hb : decimalValue ds ≤ 2562047) :
    time.ParseDuration frac (ds ++ [104]) =
      .ok ((decimalValue ds * 3600000000000 : Nat) : Int) := by
  obtain ⟨c, cs, rfl⟩ := List.exists_cons_of_ne_nil hne
  have hc := hd c (List.mem_cons_self c cs)
  have hli := leadingInt_digits (c :: cs) 0 hd hb
  have h45 : ¬ (c = 45) := by omega
  have hdd : time.isDotOrDigit c = true := by
    simp [time.isDotOrDigit]; omega
  have hm3 : ¬ (decimalValue (c :: cs) * 3600000000000 > 2 ^ 63 - 1) := by omega
  have hloop : time.parseLoop frac (c :: (cs ++ [104])).length (c :: (cs ++ [104])) 0 =
      some (.ok (decimalValue (c :: cs) * 3600000000000)) := by
    rw [List.length_cons]
    exact parseLoop_single_hours frac _ c (cs ++ [104]) _ hdd hli (by simp) hb
  have hs1 : ¬ (c :: (cs ++ [104]) = [48]) := by
    intro h; have := congrArg List.length h; simp at this
  have h43 : ¬ (c = 43) := by omega
  unfold time.ParseDuration
  simp only [List.cons_append, h45, h43, or_self, decide_False, if_false, hloop, hs1,
    Bool.false_eq_true, hm3]
  simp [time.toInt64]
  omega

theorem leadingInt_digits_cases (ds : GoString) (x : Nat)
    (hd : ∀ c ∈ ds, 48 ≤ c ∧ c ≤ 57) :
    time.leadingInt x (ds ++ [104]) = none ∨
    time.leadingInt x (ds ++ [104]) =
      some (ds.foldl (fun x c => x * 10 + (c - 48)) x, [104]) := by
  induction ds generalizing x with
  | nil => right; simp [time.leadingInt]
  | cons c cs ih =>
    have hc := hd c (List.mem_cons_self c cs)
    have h1 : ¬ (c < 48 ∨ c > 57) := by omega
    simp only [List.cons_append, time.leadingInt, h1, if_false, List.foldl_cons]
    by_cases h2 : x > 2 ^ 63 / 10
    · left; rw [if_pos h2]
    · have hmod : (x * 10 + c - 48) % 2 ^ 64 = x * 10 + (c - 48) := by
        rw [Nat.mod_eq_of_lt] <;> omega
      simp only [h2, if_false, hmod]
      by_cases h3 : x * 10 + (c - 48) > 2 ^ 63
      · left; rw [if_pos h3]
      · simp only [h3, if_false]
        exact ih _ (fun d hdm => hd d (List.mem_cons_of_mem c hdm))

theorem parseLoop_single_hours_overflow (frac : Nat → Nat → Nat → Nat) (fuel c : Nat)
    (t : GoString) (N : Nat) (hdd : time.isDotOrDigit c = true)
    (hli : time.leadingInt 0 (c :: t) = none ∨
      (time.leadingInt 0 (c :: t) = some (N, [104]) ∧ 2562047 < N)) (ht : t ≠ []) :
    time.parseLoop frac (fuel + 1) (c :: t) 0 = some (.error .invalidDuration) := by
  have hlen : t.length ≠ 0 := fun h => ht (List.length_eq_zero.1 h)
  have hq : (2 : Nat) ^ 63 / 3600000000000 = 2562047 := by norm_num
  rw [time.parseLoop]
  rcases hli with hli | ⟨hli, hN⟩
  · simp only [hdd, hli, not_true_eq_false, if_false]
  · simp only [hdd, hli, not_true_eq_false, if_false]
    simp [time.fraction, time.scanUnit, time.isDotOrDigit, time.unitMap, hlen, hq, hN]

theorem ParseDuration_hours_overflow (frac : Nat → Nat → Nat → Nat) (ds : GoString)
    (hne : ds ≠ []) (hd : ∀ c ∈ ds, 48 ≤ c ∧ c ≤ 57) (hb : 2562047 < decimalValue ds) :
    time.ParseDuration frac (ds ++ [104]) = .error .invalidDuration := by
  obtain ⟨c, cs, rfl⟩ := List.exists_cons_of_ne_nil hne
  have hc := hd c (List.mem_cons_self c cs)
  have hli : time.leadingInt 0 (c :: (cs ++ [104])) = none ∨
      (time.leadingInt 0 (c :: (cs ++ [104])) = some (decimalValue (c :: cs), [104]) ∧
        2562047 < decimalValue (c :: cs)) := by
    rcases leadingInt_digits_cases (c :: cs) 0 hd with h | h
    · exact Or.inl h
    · exact Or.inr ⟨h, hb⟩
  have h45 : ¬ (c = 45) := by omega
  have h43 : ¬ (c = 43) := by omega
  have hdd : time.isDotOrDigit c = true := by
    simp [time.isDotOrDigit]; omega
  have hloop : time.parseLoop frac (c :: (cs ++ [104])).length (c :: (cs ++ [104])) 0 =
      some (.error .invalidDuration) := by
    rw [List.length_cons]
    exact parseLoop_single_hours_overflow frac _ c (cs ++ [104]) _ hdd hli (by simp)
  have hs1 : ¬ (c :: (cs ++ [104]) = [48]) := by
    intro h; have := congrArg List.length h; simp at this
  unfold time.ParseDuration
  simp only [List.cons_append, h45, h43, or_self, decide_False, if_false, hloop, hs1]
  simp

/-- A run whose TTL step fails ends in start-up: exit status 1, no issuance
call, no output file touched. -/
theorem main_ttl_error {e : Env} {err : time.ParseError} (hne : e.ttl ≠ [])
    (herr : time.ParseDuration e.floatFrac e.ttl = .error err) :
    (main e).status = 1 ∧ (main e).fs = e.fs ∧
      ∀ ev ∈ (main e).trace, ev.client? = none ∧ ev.isOutput = false := by
  unfold main
  split
  · rename_i r hr
    obtain ⟨h1, h2, h3⟩ := startup_error hr
    exact ⟨h2, h1, h3⟩
  · rename_i cli pfx tr hs
    obtain ⟨a0, rest, home, t, c0, _, _, _, _, _, h6, _, _⟩ := startup_ok hs
    rcases (setTTL_ok h6).2 with ⟨h, _⟩ | ⟨_, d, hd, _⟩
    · exact (hne h).elim
    · rw [herr] at hd; cases hd

theorem ascii_h : ascii "h" = [104] := by decide

/-- C4 (amended): for every non-empty `-ttl` string that `time.ParseDuration`
rejects, such as `abc` or `-`, the run ends with exit status 1 before any
issuance call and without touching any output file. -/
theorem C4_rejected_ttl_fails_before_issuance (e : Env) (err : time.ParseError)
    (hne : e.ttl ≠ []) (herr : time.ParseDuration e.floatFrac e.ttl = .error err) :
    ((main e).status = 1 ∧ (main e).fs = e.fs ∧
      ∀ ev ∈ (main e).trace, ev.client? = none ∧ ev.isOutput = false) ∧
    (∀ frac, time.ParseDuration frac (ascii "abc") = .error .invalidDuration) ∧
    (∀ frac, time.ParseDuration frac (ascii "-") = .error .invalidDuration) :=
  ⟨main_ttl_error hne herr, fun _ => rfl, fun _ => rfl⟩

theorem C4_rejected_ttl_fails_before_issuance_witness :
    (main badTtlEnv).status = 1 ∧ (main badTtlEnv).fs = badTtlEnv.fs ∧
      ∀ ev ∈ (main badTtlEnv).trace, ev.client? = none ∧ ev.isOutput = false :=
  (C4_rejected_ttl_fails_before_issuance badTtlEnv .invalidDuration (by decide) (by decide)).1

/-- C4 (counterexample): the negative duration `-1h` is accepted: the run
succeeds and GenCert receives a client whose TTL is minus one hour; the empty
`-ttl` string is accepted too, with the TTL left at zero. -/
theorem C4_negative_ttl_accepted :
    time.ParseDuration negTtlEnv.floatFrac negTtlEnv.ttl = .ok (-3600000000000) ∧
    negTtlEnv.ttl = ascii "-1h" ∧
    (main negTtlEnv).status = 0 ∧
    Event.GenCert { okClient with TTL := -3600000000000 }
      ⟨⟨ascii "example.com", [], []⟩, [[], ascii "example.com"], []⟩
      ∈ (main negTtlEnv).trace ∧
    (main emptyTtlEnv).status = 0 ∧
    Event.GenCert { okClient with TTL := 0 }
      ⟨⟨ascii "example.com", [], []⟩, [[], ascii "example.com"], []⟩
      ∈ (main emptyTtlEnv).trace := by
  decide

/-- C5 (amended): for every `-ttl` string made of decimal digits denoting n
followed by `h`, when n hours fit in a signed 64-bit count of nanoseconds
(n * 3600 * 10^9 ≤ 2^63 - 1) parsing succeeds and the TTL of the client given to
an issuance call is exactly n * 3600 * 10^9 nanoseconds; for larger n parsing
fails with an invalid-duration error and the run ends with exit status 1
without an issuance call. -/
theorem C5_ttl_hours_within_int64 (e : Env) (ds : GoString) (hne : ds ≠ [])
    (hd : ∀ c ∈ ds, 48 ≤ c ∧ c ≤ 57) (httl : e.ttl = ds ++ ascii "h") :
    (decimalValue ds * (3600 * 10 ^ 9) ≤ 2 ^ 63 - 1 →
      time.ParseDuration e.floatFrac e.ttl =
        .ok ((decimalValue ds * (3600 * 10 ^ 9) : Nat) : Int) ∧
      ∀ ev ∈ (main e).trace, ∀ c, ev.client? = some c →
        c.TTL = ((decimalValue ds * (3600 * 10 ^ 9) : Nat) : Int)) ∧
    (2 ^ 63 - 1 < decimalValue ds * (3600 * 10 ^ 9) →
      time.ParseDuration e.floatFrac e.ttl = .error .invalidDuration ∧
      (main e).status = 1 ∧ ∀ ev ∈ (main e).trace, ev.client? = none) := by
  rw [ascii_h] at httl
  have hk : (3600 * 10 ^ 9 : Nat) = 3600000000000 := by norm_num
  have httlne : e.ttl ≠ [] := by rw [httl]; simp
  constructor
  · intro hb
    have hb2 : decimalValue ds ≤ 2562047 := by omega
    have hp := ParseDuration_hours e.floatFrac ds hne hd hb2
    rw [← httl] at hp
    rw [hk]
    refine ⟨hp, ?_⟩
    intro ev hev c hc
    obtain ⟨a0, rest, home, t, c0, _, _, _, _, h5, h6⟩ := main_client hev hc
    rcases (setTTL_ok h5).2 with ⟨h, _⟩ | ⟨_, d, hdd, hc0⟩
    · exact (httlne h).elim
    · rw [hp] at hdd
      cases hdd
      rw [h6, hc0]
  · intro hb
    have hb2 : 2562047 < decimalValue ds := by omega
    have hp := ParseDuration_hours_overflow e.floatFrac ds hne hd hb2
    rw [← httl] at hp
    obtain ⟨h1, _, h3⟩ := main_ttl_error httlne hp
    exact ⟨hp, h1, fun ev hev => (h3 ev hev).1⟩

theorem C5_ttl_hours_within_int64_witness :
    decimalValue (ascii "24") = 24 ∧
    Event.GenCert { okClient with TTL := 86400000000000 }
      ⟨⟨ascii "example.com", [], []⟩, [[], ascii "example.com"], []⟩
      ∈ (main dayTtlEnv).trace ∧
    ({ okClient with TTL := 86400000000000 } : vpki.Client).TTL =
      ((decimalValue (ascii "24") * (3600 * 10 ^ 9) : Nat) : Int) :=
  ⟨by decide, by decide,
    ((C5_ttl_hours_within_int64 dayTtlEnv (ascii "24") (by decide) (by decide) (by decide)).1
      (by decide)).2
      (Event.GenCert { okClient with TTL := 86400000000000 }
        ⟨⟨ascii "example.com", [], []⟩, [[], ascii "example.com"], []⟩)
      (by decide) _ rfl⟩

/-- C5 (counterexample): the well-formed string `2562048h` does not parse:
`time.ParseDuration` reports an invalid duration, the run ends with exit
status 1 and no client with a TTL of 2562048 hours reaches an issuance call. -/
theorem C5_large_hours_rejected :
    bigTtlEnv.ttl = ascii "2562048h" ∧
    time.ParseDuration bigTtlEnv.floatFrac bigTtlEnv.ttl = .error .invalidDuration ∧
    (main bigTtlEnv).status = 1 ∧
    (main bigTtlEnv).trace.filterMap Event.client? = [] := by
  decide

/-! ## Output files -/

theorem crt_ne_key (pfx : GoString) : pfx ++ ascii ".crt" ≠ pfx ++ ascii ".key" := by
  intro h
  have h2 := List.append_cancel_left h
  revert h2
  decide

theorem main_eq_of_startup {e : Env} {a0 : GoString} {rest : List GoString}
    {home t : GoString} {c0 : vpki.Client}
    (h1 : e.args = a0 :: rest) (h2 : e.homedirDir = some home)
    (h3 : e.readFile (e.pathJoin home (ascii ".vault-token")) = some t)
    (h4 : e.vaultAddr ≠ []) (h5 : setTTL e (newClient e e.vaultAddr) = .ok c0) :
    main e =
      if e.csr ≠ [] then
        signMode e { c0 with token := t } (pfxOf a0 rest)
          [.homedirDir, .readFile (e.pathJoin home (ascii ".vault-token")),
            .getenv (ascii "VAULT_ADDR")]
      else
        generateMode e { c0 with token := t } (pfxOf a0 rest)
          [.homedirDir, .readFile (e.pathJoin home (ascii ".vault-token")),
            .getenv (ascii "VAULT_ADDR")] := by
  have hs : startup e = .ok ({ c0 with token := t }, pfxOf a0 rest,
      [.homedirDir, .readFile (e.pathJoin home (ascii ".vault-token")),
        .getenv (ascii "VAULT_ADDR")]) := by
    simp [startup, h1, h2, h3, h4, h5]
  unfold main
  rw [hs]

/-- The file system after both files were opened with truncation and written. -/
theorem written_fs (fs : FS) (um : Nat) (pfx pub priv : GoString) :
    ((((fs.open um (pfx ++ ascii ".crt") [.O_RDWR, .O_CREATE, .O_TRUNC] 0o640).open um
        (pfx ++ ascii ".key") [.O_RDWR, .O_CREATE, .O_TRUNC] 0o600).write
        (pfx ++ ascii ".crt") pub).write (pfx ++ ascii ".key") priv) (pfx ++ ascii ".crt") =
      some ⟨pub, match fs (pfx ++ ascii ".crt") with
        | none => applyUmask 0o640 um
        | some f => f.perm⟩ ∧
    ((((fs.open um (pfx ++ ascii ".crt") [.O_RDWR, .O_CREATE, .O_TRUNC] 0o640).open um
        (pfx ++ ascii ".key") [.O_RDWR, .O_CREATE, .O_TRUNC] 0o600).write
        (pfx ++ ascii ".crt") pub).write (pfx ++ ascii ".key") priv) (pfx ++ ascii ".key") =
      some ⟨priv, match fs (pfx ++ ascii ".key") with
        | none => applyUmask 0o600 um
        | some f => f.perm⟩ := by
  have hne := crt_ne_key pfx
  have hne2 : pfx ++ ascii ".key" ≠ pfx ++ ascii ".crt" := fun h => hne h.symm
  constructor
  · simp only [FS.write, FS.open, hne, hne2, if_true, if_false]
    cases fs (pfx ++ ascii ".crt") <;> simp
  · simp only [FS.write, FS.open, hne, hne2, if_true, if_false]
    cases fs (pfx ++ ascii ".key") <;> simp

theorem generateMode_success {e : Env} {cli : vpki.Client} {pfx : GoString}
    (tr : List Event) {certs : vpki.RawPair} (hresp : e.GenCert cli (buildRequest e pfx) = some certs)
    (ho1 : e.openFails (pfx ++ ascii ".crt") = false)
    (ho2 : e.openFails (pfx ++ ascii ".key") = false)
    (hw1 : e.writeFails (pfx ++ ascii ".crt") = none)
    (hw2 : e.writeFails (pfx ++ ascii ".key") = none) :
    (generateMode e cli pfx tr).status = 0 ∧
    (generateMode e cli pfx tr).fs =
      (((e.fs.open e.umask (pfx ++ ascii ".crt") [.O_RDWR, .O_CREATE, .O_TRUNC] 0o640).open
        e.umask (pfx ++ ascii ".key") [.O_RDWR, .O_CREATE, .O_TRUNC] 0o600).write
        (pfx ++ ascii ".crt") certs.Public).write (pfx ++ ascii ".key") certs.Private ∧
    Event.openFile (pfx ++ ascii ".key") [.O_RDWR, .O_CREATE, .O_TRUNC] 0o600
      ∈ (generateMode e cli pfx tr).trace := by
  unfold generateMode
  simp [hresp, ho1, ho2, hw1, hw2, doWrite]

theorem generateMode_status_zero {e : Env} {cli : vpki.Client} {pfx : GoString}
    {tr : List Event} (h : (generateMode e cli pfx tr).status = 0) :
    ∃ certs, e.GenCert cli (buildRequest e pfx) = some certs ∧
      e.openFails (pfx ++ ascii ".crt") = false ∧ e.openFails (pfx ++ ascii ".key") = false ∧
      e.writeFails (pfx ++ ascii ".crt") = none ∧ e.writeFails (pfx ++ ascii ".key") = none := by
  unfold generateMode at h
  dsimp only at h
  split at h
  · simp at h
  · rename_i certs hresp
    split at h
    · simp at h
    · rename_i ho1
      split at h
      · simp at h
      · rename_i ho2
        split at h
        · simp at h
        · rename_i hw1
          split at h
          · simp at h
          · rename_i hw2
            exact ⟨certs, hresp, by simpa using ho1, by simpa using ho2, hw1, hw2⟩

theorem generateMode_status (e : Env) (cli : vpki.Client) (pfx : GoString) (tr : List Event) :
    (generateMode e cli pfx tr).status = 0 ∨ (generateMode e cli pfx tr).status = 1 := by
  unfold generateMode
  dsimp only
  repeat' split
  all_goals simp

theorem signMode_status (e : Env) (cli : vpki.Client) (pfx : GoString) (tr : List Event) :
    (signMode e cli pfx tr).status = 0 ∨ (signMode e cli pfx tr).status = 1 := by
  unfold signMode
  dsimp only
  repeat' split
  all_goals simp

theorem generateMode_any_output (e : Env) (cli : vpki.Client) (pfx : GoString)
    (tr : List Event) :
    (generateMode e cli pfx tr).trace.any Event.isOutput =
      (tr.any Event.isOutput || (e.GenCert cli (buildRequest e pfx)).isSome) := by
  unfold generateMode
  dsimp only
  repeat' split
  all_goals simp_all [Event.isOutput, List.any_append]

theorem signMode_any_output (e : Env) (cli : vpki.Client) (pfx : GoString)
    (tr : List Event) :
    (signMode e cli pfx tr).trace.any Event.isOutput =
      (tr.any Event.isOutput || (e.readFile e.csr).isSome) := by
  unfold signMode
  dsimp only
  repeat' split
  all_goals simp_all [Event.isOutput, List.any_append]

theorem generateMode_no_response {e : Env} {cli : vpki.Client} {pfx : GoString}
    {tr : List Event} (h : e.GenCert cli (buildRequest e pfx) = none) :
    (generateMode e cli pfx tr).fs = e.fs := by
  simp [generateMode, h]

theorem signMode_no_csr {e : Env} {cli : vpki.Client} {pfx : GoString}
    {tr : List Event} (h : e.readFile e.csr = none) :
    (signMode e cli pfx tr).fs = e.fs := by
  simp [signMode, h]

theorem generateMode_fatal_genCert {e : Env} {cli : vpki.Client} {pfx : GoString}
    {tr : List Event} (h : Event.fatal .genCert ∈ (generateMode e cli pfx tr).trace)
    (htr : Event.fatal .genCert ∉ tr) : e.GenCert cli (buildRequest e pfx) = none := by
  cases hresp : e.GenCert cli (buildRequest e pfx) with
  | none => rfl
  | some certs =>
    exfalso
    unfold generateMode at h
    simp only [hresp] at h
    repeat' split at h
    all_goals simp_all

theorem signMode_fatal_csrSign {e : Env} {cli : vpki.Client} {pfx : GoString}
    {tr : List Event} (h : Event.fatal .csrSign ∈ (signMode e cli pfx tr).trace)
    (htr : Event.fatal .csrSign ∉ tr) :
    (signMode e cli pfx tr).fs = e.fs.open e.umask (pfx ++ ascii ".crt") [.O_RDWR, .O_CREATE] 0o640 := by
  unfold signMode at h ⊢
  dsimp only at h ⊢
  cases hcsr : e.readFile e.csr with
  | none => simp_all
  | some bs =>
    cases ho : e.openFails (pfx ++ ascii ".crt") with
    | true => simp_all
    | false =>
      cases hresp : e.RawSignCSRBytes cli bs pfx cli.TTL with
      | none => simp_all
      | some res =>
        cases hw : e.writeFails (pfx ++ ascii ".crt") <;> simp_all

theorem signMode_status_zero {e : Env} {cli : vpki.Client} {pfx : GoString}
    {tr : List Event} (h : (signMode e cli pfx tr).status = 0) :
    ∃ bs res, e.readFile e.csr = some bs ∧
      e.RawSignCSRBytes cli bs pfx cli.TTL = some res ∧
      Event.RawSignCSRBytes cli bs pfx cli.TTL ∈ (signMode e cli pfx tr).trace ∧
      (signMode e cli pfx tr).fs =
        (e.fs.open e.umask (pfx ++ ascii ".crt") [.O_RDWR, .O_CREATE] 0o640).write
          (pfx ++ ascii ".crt") res := by
  unfold signMode at h ⊢
  dsimp only at h ⊢
  cases hcsr : e.readFile e.csr with
  | none => simp_all
  | some bs =>
    cases ho : e.openFails (pfx ++ ascii ".crt") with
    | true => simp_all
    | false =>
      cases hresp : e.RawSignCSRBytes cli bs pfx cli.TTL with
      | none => simp_all
      | some res =>
        cases hw : e.writeFails (pfx ++ ascii ".crt") with
        | some n => simp_all
        | none => simp_all [doWrite]

/-- A successful non-truncating open followed by a write at offset 0 leaves a
file that starts with the written bytes. -/
theorem open_write_starts_with (fs : FS) (um : Nat) (name res : GoString) :
    ∃ f, ((fs.open um name [.O_RDWR, .O_CREATE] 0o640).write name res) name = some f ∧
      f.data.take res.length = res := by
  simp only [FS.write, FS.open, if_true]
  cases fs name <;> simp

/-- A successful non-truncating open changes nothing but an absent file of that
name, which it creates empty. -/
theorem open_no_trunc (fs : FS) (um : Nat) (name : GoString) (perm : Nat) (p : GoString) :
    (fs.open um name [.O_RDWR, .O_CREATE] perm) p = fs p ∨
      (p = name ∧ fs p = none ∧
        (fs.open um name [.O_RDWR, .O_CREATE] perm) p = some ⟨[], applyUmask perm um⟩) := by
  simp only [FS.open]
  by_cases hp : p = name
  · subst hp
    cases h : fs p <;> simp
  · simp [hp]

/-- Whatever the umask, a file created with requested mode 0600 has no group
or other permission bits. -/
theorem applyUmask_owner_only (um : Nat) : applyUmask 0o600 um &&& 0o077 = 0 := by
  unfold applyUmask
  rw [Nat.and_comm 0o600, Nat.and_assoc]
  have h : (0o600 : Nat) &&& 0o077 = 0 := by decide
  rw [h, Nat.and_zero]

theorem owner_bits_kept : ∀ w : Fin 512,
    w.val &&& 0o600 = 0 → 0o600 &&& (0o777 ^^^ w.val) = 0o600 := by
  decide

/-- A umask that leaves the owner read and write bits alone leaves a requested
mode 0600 as it is. -/
theorem applyUmask_600 (um : Nat) (h : um &&& 0o600 = 0) : applyUmask 0o600 um = 0o600 := by
  unfold applyUmask
  have hw : um &&& 0o777 < 512 := Nat.lt_of_le_of_lt Nat.and_le_right (by decide)
  have h2 : (um &&& 0o777) &&& 0o600 = 0 := by
    rw [Nat.and_assoc]
    have h3 : (0o777 : Nat) &&& 0o600 = 0o600 := by decide
    rw [h3, h]
  exact owner_bits_kept ⟨um &&& 0o777, hw⟩ h2

theorem signMode_csr_unreadable {e : Env} {cli : vpki.Client} {pfx : GoString}
    {tr : List Event} (h : e.readFile e.csr = none) :
    (signMode e cli pfx tr).status = 1 ∧ (signMode e cli pfx tr).fs = e.fs := by
  simp [signMode, h]

theorem signMode_open_fails {e : Env} {cli : vpki.Client} {pfx : GoString}
    {tr : List Event} (h : e.openFails (pfx ++ ascii ".crt") = true) :
    (signMode e cli pfx tr).status = 1 ∧ (signMode e cli pfx tr).fs = e.fs := by
  unfold signMode
  cases hcsr : e.readFile e.csr <;> simp [h, hcsr]

theorem generateMode_open_fails {e : Env} {cli : vpki.Client} {pfx : GoString}
    {tr : List Event} (h : e.openFails (pfx ++ ascii ".crt") = true) :
    (generateMode e cli pfx tr).status = 1 ∧ (generateMode e cli pfx tr).fs = e.fs := by
  unfold generateMode
  cases hresp : e.GenCert cli (buildRequest e pfx) <;> simp [h, hresp]

theorem generateMode_no_response_status {e : Env} {cli : vpki.Client} {pfx : GoString}
    {tr : List Event} (h : e.GenCert cli (buildRequest e pfx) = none) :
    (generateMode e cli pfx tr).status = 1 := by
  simp [generateMode, h]

theorem generateMode_key_open_fails {e : Env} {cli : vpki.Client} {pfx : GoString}
    {tr : List Event} {certs : vpki.RawPair}
    (hresp : e.GenCert cli (buildRequest e pfx) = some certs)
    (ho1 : e.openFails (pfx ++ ascii ".crt") = false)
    (ho2 : e.openFails (pfx ++ ascii ".key") = true) :
    (generateMode e cli pfx tr).status = 1 ∧
    (generateMode e cli pfx tr).fs =
      e.fs.open e.umask (pfx ++ ascii ".crt") [.O_RDWR, .O_CREATE, .O_TRUNC] 0o640 := by
  simp [generateMode, hresp, ho1, ho2]

theorem signMode_no_sign {e : Env} {cli : vpki.Client} {pfx : GoString}
    {tr : List Event} {bs : GoString} (hcsr : e.readFile e.csr = some bs)
    (hresp : e.RawSignCSRBytes cli bs pfx cli.TTL = none) :
    (signMode e cli pfx tr).status = 1 ∧
    ((signMode e cli pfx tr).fs = e.fs ∨
      (signMode e cli pfx tr).fs =
        e.fs.open e.umask (pfx ++ ascii ".crt") [.O_RDWR, .O_CREATE] 0o640) := by
  unfold signMode
  cases ho : e.openFails (pfx ++ ascii ".crt") <;> simp [hcsr, hresp, ho]

/-- The start-up failures, stated on the environment. -/
theorem startup_fails {e : Env}
    (h : e.args = [] ∨ e.homedirDir = none ∨
      (∃ home, e.homedirDir = some home ∧
        e.readFile (e.pathJoin home (ascii ".vault-token")) = none) ∨
      e.vaultAddr = [] ∨
      (e.ttl ≠ [] ∧ ∃ err, time.ParseDuration e.floatFrac e.ttl = .error err)) :
    ∃ r, startup e = .error r := by
  cases hs : startup e with
  | error r => exact ⟨r, rfl⟩
  | ok v =>
    exfalso
    obtain ⟨cli, pfx, tr⟩ := v
    obtain ⟨a0, rest, home, t, c0, h1, _, h3, h4, h5, h6, _, _⟩ := startup_ok hs
    rcases h with h | h | ⟨home2, hh, ht⟩ | h | ⟨hne, err, herr⟩
    · rw [h1] at h; cases h
    · rw [h3] at h; cases h
    · rw [h3] at hh; cases hh; rw [h4] at ht; cases ht
    · exact h5 h
    · rcases (setTTL_ok h6).2 with ⟨h, _⟩ | ⟨_, d, hd, _⟩
      · exact hne h
      · rw [herr] at hd; cases hd

theorem generateMode_genCert_mem (e : Env) (cli : vpki.Client) (pfx : GoString)
    (tr : List Event) :
    Event.GenCert cli (buildRequest e pfx) ∈ (generateMode e cli pfx tr).trace := by
  unfold generateMode
  dsimp only
  repeat' split
  all_goals simp

/-- The three shapes of a run: an early exit during start-up, sign mode, or
generate mode. -/
theorem main_cases (e : Env) :
    (∃ r, startup e = .error r ∧ main e = r) ∨
    (∃ cli pfx tr, startup e = .ok (cli, pfx, tr) ∧ e.csr ≠ [] ∧
      main e = signMode e cli pfx tr) ∨
    (∃ cli pfx tr, startup e = .ok (cli, pfx, tr) ∧ e.csr = [] ∧
      main e = generateMode e cli pfx tr) := by
  unfold main
  cases hs : startup e with
  | error r => exact Or.inl ⟨r, rfl, rfl⟩
  | ok v =>
    obtain ⟨cli, pfx, tr⟩ := v
    by_cases hcsr : e.csr = []
    · exact Or.inr (Or.inr ⟨cli, pfx, tr, rfl, hcsr, by simp [hcsr]⟩)
    · exact Or.inr (Or.inl ⟨cli, pfx, tr, rfl, hcsr, by simp [hcsr]⟩)

/-- The files read by a run that ends during start-up: at most the token file. -/
theorem startup_error_reads {e : Env} {r : Run} (h : startup e = .error r) :
    ∀ name, Event.readFile name ∈ r.trace →
      ∃ home, e.homedirDir = some home ∧ name = e.pathJoin home (ascii ".vault-token") := by
  unfold startup at h
  split at h
  · cases h; simp
  · dsimp only at h
    split at h
    · cases h; simp
    · rename_i home hhome
      split at h
      · cases h; simp [hhome]
      · split at h
        · cases h; simp [hhome]
        · split at h
          · cases h; simp [hhome]
          · cases h

/-- C7 (amended): when `VAULT_ADDR` is unset or empty the run ends with exit
status 1 before any output file is opened or written and before any call to
the authority, leaving the file system as it was; the only file read before
that is the token credential file in the home directory. -/
theorem C7_missing_vault_addr (e : Env) (haddr : e.vaultAddr = []) :
    (main e).status = 1 ∧ (main e).fs = e.fs ∧
    (∀ ev ∈ (main e).trace, ev.client? = none ∧ ev.isOutput = false) ∧
    (∀ name, Event.readFile name ∈ (main e).trace →
      ∃ home, e.homedirDir = some home ∧ name = e.pathJoin home (ascii ".vault-token")) := by
  rcases main_cases e with ⟨r, hs, hm⟩ | ⟨cli, pfx, tr, hs, _, _⟩ | ⟨cli, pfx, tr, hs, _, _⟩
  · rw [hm]
    obtain ⟨h1, h2, h3⟩ := startup_error hs
    exact ⟨h2, h1, h3, startup_error_reads hs⟩
  · obtain ⟨_, _, _, _, _, _, _, _, _, h5, _⟩ := startup_ok hs
    exact (h5 haddr).elim
  · obtain ⟨_, _, _, _, _, _, _, _, _, h5, _⟩ := startup_ok hs
    exact (h5 haddr).elim

theorem C7_missing_vault_addr_witness :
    (main noAddrEnv).status = 1 ∧ (main noAddrEnv).fs = noAddrEnv.fs ∧
    (∀ ev ∈ (main noAddrEnv).trace, ev.client? = none ∧ ev.isOutput = false) ∧
    (∀ name, Event.readFile name ∈ (main noAddrEnv).trace →
      ∃ home, noAddrEnv.homedirDir = some home ∧
        name = noAddrEnv.pathJoin home (ascii ".vault-token")) :=
  C7_missing_vault_addr noAddrEnv (by decide)

/-- C7 (counterexample): with `VAULT_ADDR` unset, a home directory and a
readable token file, the token credential file is read before the run
terminates on the missing address. -/
theorem C7_token_file_read_before_check :
    noAddrEnv.vaultAddr = [] ∧
    (main noAddrEnv).trace =
      [.homedirDir, .readFile (ascii "/root/.vault-token"), .getenv (ascii "VAULT_ADDR"),
        .fatal .noVaultAddr] ∧
    Event.readFile (ascii "/root/.vault-token") ∈ (main noAddrEnv).trace := by
  decide


/-- Outcome of a run, read off its exit status and its trace. -/
theorem main_outcome (e : Env) :
    ((main e).status = 0 ∨ (main e).status = 1) ∧
    ((main e).status = 0 →
      ∃ a0 rest, e.args = a0 :: rest ∧
        ((e.csr = [] ∧ ∃ cli certs,
            Event.GenCert cli (buildRequest e (pfxOf a0 rest)) ∈ (main e).trace ∧
            e.GenCert cli (buildRequest e (pfxOf a0 rest)) = some certs ∧
            (∃ m, (main e).fs (pfxOf a0 rest ++ ascii ".crt") = some ⟨certs.Public, m⟩) ∧
            (∃ m, (main e).fs (pfxOf a0 rest ++ ascii ".key") = some ⟨certs.Private, m⟩)) ∨
         (e.csr ≠ [] ∧ ∃ cli bs res,
            Event.RawSignCSRBytes cli bs (pfxOf a0 rest) cli.TTL ∈ (main e).trace ∧
            e.RawSignCSRBytes cli bs (pfxOf a0 rest) cli.TTL = some res ∧
            ∃ f, (main e).fs (pfxOf a0 rest ++ ascii ".crt") = some f ∧
              f.data.take res.length = res))) ∧
    ((∀ ev ∈ (main e).trace, ev.isOutput = false) → (main e).fs = e.fs) ∧
    (e.csr = [] → Event.fatal .genCert ∈ (main e).trace →
      (main e).status = 1 ∧ (main e).fs = e.fs ∧
        ∀ ev ∈ (main e).trace, ev.isOutput = false) ∧
    (Event.fatal .csrSign ∈ (main e).trace →
      (main e).status = 1 ∧
      ∀ name, (main e).fs name = e.fs name ∨
        (e.fs name = none ∧ (main e).fs name = some ⟨[], applyUmask 0o640 e.umask⟩)) := by
  rcases main_cases e with ⟨r, hs, hm⟩ | ⟨cli, pfx, tr, hs, hcsr, hm⟩ |
    ⟨cli, pfx, tr, hs, hcsr, hm⟩
  · -- early exit during start-up
    obtain ⟨h1, h2, h3⟩ := startup_error hs
    rw [hm]
    refine ⟨Or.inr h2, ?_, fun _ => h1, fun _ _ => ⟨h2, h1, fun ev hev => (h3 ev hev).2⟩,
      fun _ => ⟨h2, fun name => Or.inl (by rw [h1])⟩⟩
    intro h0
    rw [h2] at h0
    cases h0
  · -- sign mode
    obtain ⟨a0, rest, home, t, c0, h1, h2, _, _, _, _, _, h8⟩ := startup_ok hs
    have htr : tr.any Event.isOutput = false := by subst h8; simp [Event.isOutput]
    have hfat : Event.fatal .csrSign ∉ tr := by subst h8; simp
    rw [hm]
    refine ⟨signMode_status e cli pfx tr, ?_, ?_, fun h => (hcsr h).elim, ?_⟩
    · intro h0
      obtain ⟨bs, res, _, hres, hev, hfs⟩ := signMode_status_zero h0
      refine ⟨a0, rest, h1, Or.inr ⟨hcsr, cli, bs, res, ?_, ?_, ?_⟩⟩
      · rw [← h2]; exact hev
      · rw [← h2]; exact hres
      · rw [← h2, hfs]; exact open_write_starts_with e.fs e.umask _ res
    · intro hq
      have hany := signMode_any_output e cli pfx tr
      have hnone : (signMode e cli pfx tr).trace.any Event.isOutput = false := by
        rw [List.any_eq_false]
        intro ev hev
        simp [hq ev hev]
      rw [hnone, htr] at hany
      cases hcs : e.readFile e.csr with
      | none => exact signMode_no_csr hcs
      | some bs => rw [hcs] at hany; simp at hany
    · intro hf
      have hfs := signMode_fatal_csrSign hf hfat
      refine ⟨?_, fun name => ?_⟩
      · rcases signMode_status e cli pfx tr with h0 | h1
        · exfalso
          unfold signMode at h0 hf
          dsimp only at h0 hf
          repeat' split at h0
          all_goals simp_all
        · exact h1
      · rw [hfs]
        rcases open_no_trunc e.fs e.umask (pfx ++ ascii ".crt") 0o640 name with h | ⟨_, h2, h3⟩
        · exact Or.inl h
        · exact Or.inr ⟨h2, h3⟩
  · -- generate mode
    obtain ⟨a0, rest, home, t, c0, h1, h2, _, _, _, _, _, h8⟩ := startup_ok hs
    have htr : tr.any Event.isOutput = false := by subst h8; simp [Event.isOutput]
    have hfat : Event.fatal .genCert ∉ tr := by subst h8; simp
    have hfat2 : Event.fatal .csrSign ∉ tr := by subst h8; simp
    have hquiet : e.GenCert cli (buildRequest e pfx) = none →
        ∀ ev ∈ (generateMode e cli pfx tr).trace, ev.isOutput = false := by
      intro hnone ev hev
      have hany := generateMode_any_output e cli pfx tr
      rw [htr, hnone] at hany
      have := List.any_eq_false.1 hany ev hev
      simpa using this
    rw [hm]
    refine ⟨generateMode_status e cli pfx tr, ?_, ?_, ?_, ?_⟩
    · intro h0
      obtain ⟨certs, hresp, ho1, ho2, hw1, hw2⟩ := generateMode_status_zero h0
      obtain ⟨_, g2, _⟩ := generateMode_success tr hresp ho1 ho2 hw1 hw2
      refine ⟨a0, rest, h1, Or.inl ⟨hcsr, cli, certs, ?_, ?_, ?_, ?_⟩⟩
      · rw [← h2]; exact generateMode_genCert_mem e cli pfx tr
      · rw [← h2]; exact hresp
      · rw [← h2, g2]; exact ⟨_, (written_fs e.fs e.umask pfx certs.Public certs.Private).1⟩
      · rw [← h2, g2]; exact ⟨_, (written_fs e.fs e.umask pfx certs.Public certs.Private).2⟩
    · intro hq
      have hany := generateMode_any_output e cli pfx tr
      have hnone : (generateMode e cli pfx tr).trace.any Event.isOutput = false := by
        rw [List.any_eq_false]
        intro ev hev
        simp [hq ev hev]
      rw [hnone, htr] at hany
      cases hg : e.GenCert cli (buildRequest e pfx) with
      | none => exact generateMode_no_response hg
      | some certs => rw [hg] at hany; simp at hany
    · intro _ hf
      have hnone := generateMode_fatal_genCert hf hfat
      refine ⟨?_, generateMode_no_response hnone, hquiet hnone⟩
      simp [generateMode, hnone]
    · intro hf
      exfalso
      unfold generateMode at hf
      dsimp only at hf
      repeat' split at hf
      all_goals simp_all



theorem main_of_startup_error {e : Env} {r : Run} (hs : startup e = .error r) :
    main e = r := by
  unfold main
  rw [hs]

theorem main_of_startup_ok {e : Env} {cli : vpki.Client} {pfx : GoString} {tr : List Event}
    (hs : startup e = .ok (cli, pfx, tr)) :
    main e = if e.csr ≠ [] then signMode e cli pfx tr else generateMode e cli pfx tr := by
  unfold main
  rw [hs]

theorem startup_ok_quiet {e : Env} {cli : vpki.Client} {pfx : GoString} {tr : List Event}
    (hs : startup e = .ok (cli, pfx, tr)) : tr.any Event.isOutput = false := by
  obtain ⟨_, _, _, _, _, _, _, _, _, _, _, _, h8⟩ := startup_ok hs
  subst h8
  simp [Event.isOutput]

/-- A run that ends during start-up touches nothing. -/
theorem startup_abort_untouched {e : Env}
    (h : e.args = [] ∨ e.homedirDir = none ∨
      (∃ home, e.homedirDir = some home ∧
        e.readFile (e.pathJoin home (ascii ".vault-token")) = none) ∨
      e.vaultAddr = [] ∨
      (e.ttl ≠ [] ∧ ∃ err, time.ParseDuration e.floatFrac e.ttl = .error err)) :
    abortsUntouched e (main e) := by
  obtain ⟨r, hs⟩ := startup_fails h
  rw [main_of_startup_error hs]
  obtain ⟨h1, h2, h3⟩ := startup_error hs
  exact ⟨h2, h1, fun ev hev => (h3 ev hev).2⟩

/-- A run whose CSR file cannot be read touches nothing. -/
theorem csr_unreadable_untouched {e : Env} (hcsr : e.csr ≠ [])
    (hread : e.readFile e.csr = none) : abortsUntouched e (main e) := by
  cases hs : startup e with
  | error r =>
    rw [main_of_startup_error hs]
    obtain ⟨h1, h2, h3⟩ := startup_error hs
    exact ⟨h2, h1, fun ev hev => (h3 ev hev).2⟩
  | ok v =>
    obtain ⟨cli, pfx, tr⟩ := v
    rw [main_of_startup_ok hs, if_pos hcsr]
    obtain ⟨g1, g2⟩ := @signMode_csr_unreadable e cli pfx tr hread
    refine ⟨g1, g2, ?_⟩
    have hany := signMode_any_output e cli pfx tr
    rw [startup_ok_quiet hs, hread] at hany
    intro ev hev
    have := List.any_eq_false.1 hany ev hev
    simpa using this

/-- A failed authority call in generate mode touches nothing. -/
theorem genCert_failure_untouched {e : Env} {cli : vpki.Client} {pfx : GoString}
    {tr : List Event} (hs : startup e = .ok (cli, pfx, tr)) (hcsr : e.csr = [])
    (hresp : e.GenCert cli (buildRequest e pfx) = none) : abortsUntouched e (main e) := by
  have hne : ¬ (e.csr ≠ []) := fun h => h hcsr
  rw [main_of_startup_ok hs, if_neg hne]
  refine ⟨generateMode_no_response_status hresp, generateMode_no_response hresp, ?_⟩
  have hany := generateMode_any_output e cli pfx tr
  rw [startup_ok_quiet hs, hresp] at hany
  intro ev hev
  have := List.any_eq_false.1 hany ev hev
  simpa using this

/-- A failed open of the certificate file leaves the file system as it was. -/
theorem crt_open_failure_unchanged {e : Env} {cli : vpki.Client} {pfx : GoString}
    {tr : List Event} (hs : startup e = .ok (cli, pfx, tr))
    (ho : e.openFails (pfx ++ ascii ".crt") = true) :
    (main e).status = 1 ∧ (main e).fs = e.fs := by
  rw [main_of_startup_ok hs]
  split
  · exact signMode_open_fails ho
  · exact generateMode_open_fails ho

/-- A failed authority call in sign mode: nothing is truncated or written; at
most the absent certificate file has been created empty. -/
theorem sign_failure_creates_at_most {e : Env} {cli : vpki.Client} {pfx : GoString}
    {tr : List Event} {bs : GoString} (hs : startup e = .ok (cli, pfx, tr))
    (hcsr : e.csr ≠ []) (hread : e.readFile e.csr = some bs)
    (hresp : e.RawSignCSRBytes cli bs pfx cli.TTL = none) :
    (main e).status = 1 ∧
    ∀ name, (main e).fs name = e.fs name ∨
      (name = pfx ++ ascii ".crt" ∧ e.fs name = none ∧
        (main e).fs name = some ⟨[], applyUmask 0o640 e.umask⟩) := by
  rw [main_of_startup_ok hs, if_pos hcsr]
  obtain ⟨g1, g2⟩ := @signMode_no_sign e cli pfx tr bs hread hresp
  refine ⟨g1, fun name => ?_⟩
  rcases g2 with g | g
  · rw [g]; exact Or.inl rfl
  · rw [g]; exact open_no_trunc e.fs e.umask _ _ name

/-- A failed open of the key file in generate mode: the certificate file has
been created or truncated, nothing else changed. -/
theorem key_open_failure_fs {e : Env} {cli : vpki.Client} {pfx : GoString}
    {tr : List Event} {certs : vpki.RawPair} (hs : startup e = .ok (cli, pfx, tr))
    (hcsr : e.csr = []) (hresp : e.GenCert cli (buildRequest e pfx) = some certs)
    (ho1 : e.openFails (pfx ++ ascii ".crt") = false)
    (ho2 : e.openFails (pfx ++ ascii ".key") = true) :
    (main e).status = 1 ∧
    (main e).fs =
      e.fs.open e.umask (pfx ++ ascii ".crt") [.O_RDWR, .O_CREATE, .O_TRUNC] 0o640 := by
  have hne : ¬ (e.csr ≠ []) := fun h => h hcsr
  rw [main_of_startup_ok hs, if_neg hne]
  exact generateMode_key_open_fails hresp ho1 ho2

/-- C6 (amended): every run ends with exit status 0 or 1. Exit status 0 means
the single issuance operation completed and its artifacts are written: in
generate mode the `.crt` file holds the returned certificate and the `.key`
file the returned key, in sign mode the `.crt` file starts with the returned
certificate. A run that aborts before its first output-file open has exit
status 1 and has not created, truncated or written any file: that is every
start-up failure (no positional argument, no home directory, unreadable token
file, missing `VAULT_ADDR`, rejected `-ttl`), an unreadable CSR file, and a
failed authority call in generate mode; a failed open of the `.crt` file also
leaves the file system as it was. In sign mode the `.crt` file is opened before
the authority call, so after a failed authority call nothing is truncated or
written and at most the absent `.crt` file has been created empty, with mode
0640 less the umask. In generate mode a failed open of the key file leaves the
`.crt` file created or truncated and nothing else changed. -/
theorem C6_complete_or_abort (e : Env) :
    ((main e).status = 0 ∨ (main e).status = 1) ∧
    ((main e).status = 0 →
      ∃ a0 rest, e.args = a0 :: rest ∧
        ((e.csr = [] ∧ ∃ cli certs,
            Event.GenCert cli (buildRequest e (pfxOf a0 rest)) ∈ (main e).trace ∧
            e.GenCert cli (buildRequest e (pfxOf a0 rest)) = some certs ∧
            (∃ m, (main e).fs (pfxOf a0 rest ++ ascii ".crt") = some ⟨certs.Public, m⟩) ∧
            (∃ m, (main e).fs (pfxOf a0 rest ++ ascii ".key") = some ⟨certs.Private, m⟩)) ∨
         (e.csr ≠ [] ∧ ∃ cli bs res,
            Event.RawSignCSRBytes cli bs (pfxOf a0 rest) cli.TTL ∈ (main e).trace ∧
            e.RawSignCSRBytes cli bs (pfxOf a0 rest) cli.TTL = some res ∧
            ∃ f, (main e).fs (pfxOf a0 rest ++ ascii ".crt") = some f ∧
              f.data.take res.length = res))) ∧
    ((e.args = [] ∨ e.homedirDir = none ∨
        (∃ home, e.homedirDir = some home ∧
          e.readFile (e.pathJoin home (ascii ".vault-token")) = none) ∨
        e.vaultAddr = [] ∨
        (e.ttl ≠ [] ∧ ∃ err, time.ParseDuration e.floatFrac e.ttl = .error err)) →
      abortsUntouched e (main e)) ∧
    (e.csr ≠ [] → e.readFile e.csr = none → abortsUntouched e (main e)) ∧
    (∀ cli pfx tr, startup e = .ok (cli, pfx, tr) → e.csr = [] →
      e.GenCert cli (buildRequest e pfx) = none → abortsUntouched e (main e)) ∧
    (e.csr = [] → Event.fatal .genCert ∈ (main e).trace → abortsUntouched e (main e)) ∧
    ((∀ ev ∈ (main e).trace, ev.isOutput = false) → (main e).fs = e.fs) ∧
    (∀ cli pfx tr, startup e = .ok (cli, pfx, tr) →
      e.openFails (pfx ++ ascii ".crt") = true →
      (main e).status = 1 ∧ (main e).fs = e.fs) ∧
    (∀ cli pfx tr bs, startup e = .ok (cli, pfx, tr) → e.csr ≠ [] →
      e.readFile e.csr = some bs → e.RawSignCSRBytes cli bs pfx cli.TTL = none →
      (main e).status = 1 ∧
      ∀ name, (main e).fs name = e.fs name ∨
        (name = pfx ++ ascii ".crt" ∧ e.fs name = none ∧
          (main e).fs name = some ⟨[], applyUmask 0o640 e.umask⟩)) ∧
    (Event.fatal .csrSign ∈ (main e).trace →
      (main e).status = 1 ∧
      ∀ name, (main e).fs name = e.fs name ∨
        (e.fs name = none ∧ (main e).fs name = some ⟨[], applyUmask 0o640 e.umask⟩)) ∧
    (∀ cli pfx tr certs, startup e = .ok (cli, pfx, tr) → e.csr = [] →
      e.GenCert cli (buildRequest e pfx) = some certs →
      e.openFails (pfx ++ ascii ".crt") = false →
      e.openFails (pfx ++ ascii ".key") = true →
      (main e).status = 1 ∧
      (main e).fs =
        e.fs.open e.umask (pfx ++ ascii ".crt") [.O_RDWR, .O_CREATE, .O_TRUNC] 0o640) := by
  obtain ⟨o1, o2, o3, o4, o5⟩ := main_outcome e
  exact ⟨o1, o2, startup_abort_untouched, csr_unreadable_untouched,
    fun _ _ _ hs hcsr hresp => genCert_failure_untouched hs hcsr hresp,
    o4, o3,
    fun _ _ _ hs ho => crt_open_failure_unchanged hs ho,
    fun _ _ _ _ hs hcsr hread hresp => sign_failure_creates_at_most hs hcsr hread hresp,
    o5,
    fun _ _ _ _ hs hcsr hresp ho1 ho2 => key_open_failure_fs hs hcsr hresp ho1 ho2⟩

theorem C6_complete_or_abort_witness :
    abortsUntouched noHomeEnv (main noHomeEnv) ∧
    abortsUntouched noCsrEnv (main noCsrEnv) ∧
    abortsUntouched genFailEnv (main genFailEnv) :=
  ⟨(C6_complete_or_abort noHomeEnv).2.2.1 (Or.inr (Or.inl (by decide))),
    (C6_complete_or_abort noCsrEnv).2.2.2.1 (by decide) (by decide),
    (C6_complete_or_abort genFailEnv).2.2.2.2.2.1 (by decide) (by decide)⟩

/-- C6 (counterexample): a failed authority call in sign mode ends the run with
exit status 1 after the absent `.crt` file has been created, and a failure to
open the key file in generate mode ends the run with exit status 1 after the
existing `.crt` file has been truncated. -/
theorem C6_abort_leaves_crt_touched :
    Event.fatal .csrSign ∈ (main signFailEnv).trace ∧
    (main signFailEnv).status = 1 ∧
    signFailEnv.fs (ascii "example.com.crt") = none ∧
    (main signFailEnv).fs (ascii "example.com.crt") = some ⟨[], 0o640⟩ ∧
    Event.fatal .keyOpen ∈ (main keyOpenFailEnv).trace ∧
    (main keyOpenFailEnv).status = 1 ∧
    keyOpenFailEnv.fs (ascii "example.com.crt") = some ⟨ascii "OLD CERTIFICATE", 0o644⟩ ∧
    (main keyOpenFailEnv).fs (ascii "example.com.crt") = some ⟨[], 0o644⟩ := by
  decide

/-- C8 (amended): in generate mode, when the authority answers the GenCert call
with (Public, Private), the run ends with exit status 0 exactly when both
output files can be opened and written, and otherwise with exit status 1. When
it ends with exit status 0 the `.crt` file holds exactly Public and the `.key`
file exactly Private whatever they held before, and the key file was opened
with requested mode 0600: a key file the run creates has mode 0600 less the
umask bits, which is owner-only for every umask and exactly 0600 when the umask
leaves the owner read and write bits alone; a file that existed keeps its
mode. -/
theorem C8_generate_writes_crt_and_key (e : Env) (a0 : GoString) (rest : List GoString)
    (cli : vpki.Client) (req : x509.CertificateRequest) (pub priv : GoString)
    (hgen : e.csr = []) (hargs : e.args = a0 :: rest)
    (hcall : Event.GenCert cli req ∈ (main e).trace)
    (hresp : e.GenCert cli req = some ⟨pub, priv⟩) :
    ((main e).status = 0 ∨ (main e).status = 1) ∧
    ((main e).status = 0 ↔
      (e.openFails (pfxOf a0 rest ++ ascii ".crt") = false ∧
        e.openFails (pfxOf a0 rest ++ ascii ".key") = false ∧
        e.writeFails (pfxOf a0 rest ++ ascii ".crt") = none ∧
        e.writeFails (pfxOf a0 rest ++ ascii ".key") = none)) ∧
    ((main e).status = 0 →
      (main e).fs (pfxOf a0 rest ++ ascii ".crt") =
        some ⟨pub, match e.fs (pfxOf a0 rest ++ ascii ".crt") with
          | none => applyUmask 0o640 e.umask
          | some f => f.perm⟩ ∧
      (main e).fs (pfxOf a0 rest ++ ascii ".key") =
        some ⟨priv, match e.fs (pfxOf a0 rest ++ ascii ".key") with
          | none => applyUmask 0o600 e.umask
          | some f => f.perm⟩ ∧
      Event.openFile (pfxOf a0 rest ++ ascii ".key") [.O_RDWR, .O_CREATE, .O_TRUNC] 0o600
        ∈ (main e).trace) ∧
    applyUmask 0o600 e.umask &&& 0o077 = 0 ∧
    (e.umask &&& 0o600 = 0 → applyUmask 0o600 e.umask = 0o600) := by
  obtain ⟨b0, rest2, home, t, c0, h1, h2, h3, h4, h5, h6⟩ := main_client hcall rfl
  obtain ⟨b1, rest3, h7, _, h9⟩ := main_request hcall rfl
  rw [hargs] at h1 h7
  cases h1
  cases h7
  have hm := main_eq_of_startup hargs h2 h3 h4 h5
  simp only [hgen, ne_eq, not_true_eq_false, if_false] at hm
  rw [h6, h9] at hresp
  have hsucc : e.openFails (pfxOf a0 rest ++ ascii ".crt") = false ∧
      e.openFails (pfxOf a0 rest ++ ascii ".key") = false ∧
      e.writeFails (pfxOf a0 rest ++ ascii ".crt") = none ∧
      e.writeFails (pfxOf a0 rest ++ ascii ".key") = none →
      (main e).status = 0 ∧
      (main e).fs (pfxOf a0 rest ++ ascii ".crt") =
        some ⟨pub, match e.fs (pfxOf a0 rest ++ ascii ".crt") with
          | none => applyUmask 0o640 e.umask
          | some f => f.perm⟩ ∧
      (main e).fs (pfxOf a0 rest ++ ascii ".key") =
        some ⟨priv, match e.fs (pfxOf a0 rest ++ ascii ".key") with
          | none => applyUmask 0o600 e.umask
          | some f => f.perm⟩ ∧
      Event.openFile (pfxOf a0 rest ++ ascii ".key") [.O_RDWR, .O_CREATE, .O_TRUNC] 0o600
        ∈ (main e).trace := by
    rintro ⟨ho1, ho2, hw1, hw2⟩
    obtain ⟨g1, g2, g3⟩ := generateMode_success
      [.homedirDir, .readFile (e.pathJoin home (ascii ".vault-token")),
        .getenv (ascii "VAULT_ADDR")] hresp ho1 ho2 hw1 hw2
    rw [hm]
    refine ⟨g1, ?_, ?_, g3⟩
    · rw [g2]; exact (written_fs e.fs e.umask (pfxOf a0 rest) pub priv).1
    · rw [g2]; exact (written_fs e.fs e.umask (pfxOf a0 rest) pub priv).2
  have hzero : (main e).status = 0 →
      e.openFails (pfxOf a0 rest ++ ascii ".crt") = false ∧
      e.openFails (pfxOf a0 rest ++ ascii ".key") = false ∧
      e.writeFails (pfxOf a0 rest ++ ascii ".crt") = none ∧
      e.writeFails (pfxOf a0 rest ++ ascii ".key") = none := by
    intro h0
    rw [hm] at h0
    obtain ⟨_, _, ho1, ho2, hw1, hw2⟩ := generateMode_status_zero h0
    exact ⟨ho1, ho2, hw1, hw2⟩
  refine ⟨?_, ⟨hzero, fun h => (hsucc h).1⟩, fun h0 => (hsucc (hzero h0)).2,
    applyUmask_owner_only e.umask, applyUmask_600 e.umask⟩
  rw [hm]
  exact generateMode_status e _ _ _

theorem C8_generate_writes_crt_and_key_witness :
    seededEnv.fs (ascii "example.com.crt") = some ⟨ascii "OLD CERTIFICATE", 0o644⟩ ∧
    okEnv.fs (ascii "example.com.key") = none ∧
    ((main seededEnv).fs (ascii "example.com" ++ ascii ".crt") = some ⟨ascii "CERT", 0o644⟩ ∧
      (main seededEnv).fs (ascii "example.com" ++ ascii ".key") = some ⟨ascii "KEY", 0o600⟩ ∧
      Event.openFile (ascii "example.com" ++ ascii ".key") [.O_RDWR, .O_CREATE, .O_TRUNC] 0o600
        ∈ (main seededEnv).trace) ∧
    (main umask077Env).fs (ascii "example.com" ++ ascii ".crt") = some ⟨ascii "CERT", 0o600⟩ ∧
    (main umask077Env).fs (ascii "example.com" ++ ascii ".key") = some ⟨ascii "KEY", 0o600⟩ :=
  ⟨by decide, by decide,
    (C8_generate_writes_crt_and_key seededEnv (ascii "example.com") [] okClient
      ⟨⟨ascii "example.com", [], []⟩, [[], ascii "example.com"], []⟩ (ascii "CERT") (ascii "KEY")
      (by decide) (by decide) (by decide) (by decide)).2.2.1 (by decide),
    ((C8_generate_writes_crt_and_key umask077Env (ascii "example.com") [] okClient
      ⟨⟨ascii "example.com", [], []⟩, [[], ascii "example.com"], []⟩ (ascii "CERT") (ascii "KEY")
      (by decide) (by decide) (by decide) (by decide)).2.2.1 (by decide)).1,
    ((C8_generate_writes_crt_and_key umask077Env (ascii "example.com") [] okClient
      ⟨⟨ascii "example.com", [], []⟩, [[], ascii "example.com"], []⟩ (ascii "CERT") (ascii "KEY")
      (by decide) (by decide) (by decide) (by decide)).2.2.1 (by decide)).2.1⟩

/-- C8 (counterexample): in generate mode the authority answers the GenCert
call with (CERT, KEY) but the key file cannot be opened: the run ends with exit
status 1, the `.crt` file is empty instead of holding CERT and the `.key` file
still holds its old content. -/
theorem C8_response_not_written_when_key_open_fails :
    keyOpenFailEnv.csr = [] ∧
    Event.GenCert okClient ⟨⟨ascii "example.com", [], []⟩, [[], ascii "example.com"], []⟩
      ∈ (main keyOpenFailEnv).trace ∧
    keyOpenFailEnv.GenCert okClient
      ⟨⟨ascii "example.com", [], []⟩, [[], ascii "example.com"], []⟩
      = some ⟨ascii "CERT", ascii "KEY"⟩ ∧
    (main keyOpenFailEnv).status = 1 ∧
    (main keyOpenFailEnv).fs (ascii "example.com.crt") = some ⟨[], 0o644⟩ ∧
    (main keyOpenFailEnv).fs (ascii "example.com.key") = some ⟨ascii "OLD KEY", 0o600⟩ := by
  decide

end VaultCerts
